import Mathlib

/-!
Verification development for the batched bulk-deletion pipeline of the
geo_mcp_server repository, i.e. the two driver scripts
`scripts/clear-dao-space.ts` (governed DAO space) and
`scripts/clear-personal-space.ts` (ungoverned personal space).

The scripts are shallowly embedded as pure Lean functions.  Network and
chain effects are modelled by an environment record (`Env`) supplying the
values the remote endpoints return (total counts, enumerated entity and
relation lists, the existing-account lookup result, the user's answer to
the confirmation prompt, and a per-batch outcome oracle describing where,
if anywhere, each batch's transaction sequence throws).  The observable
actions of a pass (transactions submitted with their op payloads, the
confirmation prompt, the progress-log append) are collected in an event
trace.  Timing values (`elapsedMs`, timestamps) are modelled as `0`; they
carry no logical content.  Each graph-SDK builder call
(`Graph.deleteRelation`, `Graph.updateEntity` with `unset`,
`Graph.deleteEntity`, `Account.make`) is modelled as producing one logical
operation, matching the "logical operations" cost model of the scripts'
comments.  CLI integer arguments are modelled as natural numbers; where
the JavaScript source tests a number for truthiness (`if (limit)`), the
model maps `some 0` to `none` first (`truthy`), since `0` is falsy.
-/

namespace GeoClear

/-- Entity/relation totals returned by the `getTotalCounts` GraphQL query
(`clear-dao-space.ts:206`, `clear-personal-space.ts:186`). -/
structure Counts where
  entities : Nat
  relations : Nat
deriving DecidableEq, Repr

/-- An entity node as assembled by `listAllEntities`
(`clear-dao-space.ts:240-274`): id, optional name, type ids, and the
de-duplicated property ids of its values list. -/
structure EntityNode where
  id : String
  name : Option String
  typeIds : List String
  propertyIds : List String
deriving DecidableEq, Repr

/-- A relation node as returned by `listAllRelations`
(`clear-dao-space.ts:276-308`). -/
structure RelationNode where
  id : String
  typeId : String
  fromEntityId : String
  toEntityId : String
deriving DecidableEq, Repr

/-- `ACCOUNT_TYPE_ID` (`clear-dao-space.ts:65`, `clear-personal-space.ts:54`). -/
def ACCOUNT_TYPE_ID : String := "cb69723f7456471aa8ad3e93ddc3edfe"

/-- `CONFIRM_THRESHOLD` (`clear-dao-space.ts:105`, `clear-personal-space.ts:89`). -/
def CONFIRM_THRESHOLD : Nat := 1000

/-- `DEFAULT_BATCH_SIZE` (`clear-dao-space.ts:75`, `clear-personal-space.ts:56`). -/
def DEFAULT_BATCH_SIZE : Nat := 5000

/-- One character of `[a-fA-F0-9]`. -/
def isHexDigitChar (c : Char) : Bool :=
  c.isDigit || (('a' ≤ c && c ≤ 'f') || ('A' ≤ c && c ≤ 'F'))

/-- The test `/^0x[a-fA-F0-9]{40}$/i.test(name)` used to recognise
wallet-address entity names (`clear-dao-space.ts:232,553`,
`clear-personal-space.ts:212,469`).  The `i` flag additionally admits an
upper-case `X`. -/
def isEthAddressName (s : String) : Bool :=
  match s.toList with
  | '0' :: c :: rest =>
    (c == 'x' || c == 'X') && (rest.length == 40) && rest.all isHexDigitChar
  | _ => false

/-- The entity filter of both scripts (`clear-dao-space.ts:549-555`,
`clear-personal-space.ts:467-471`): keep an entity unless it has the
Account type or is named after an Ethereum address. -/
def keepNonAccountEntity (e : EntityNode) : Bool :=
  !(e.typeIds.contains ACCOUNT_TYPE_ID) &&
    !(match e.name with
      | some nm => isEthAddressName nm
      | none => false)

/-- JavaScript number truthiness for an optional numeric CLI value:
`0` is falsy, so `some 0` behaves like no value at all. -/
def truthy : Option Nat → Option Nat
  | some 0 => none
  | x => x

/-- JavaScript string truthiness for an optional string CLI value:
the empty string is falsy. -/
def truthyStr : Option String → Option String
  | some "" => none
  | x => x

/-- Net effect of `listAllEntities(spaceId, limit)`
(`clear-dao-space.ts:240-274`, identical in `clear-personal-space.ts`):
cursor pagination over the space's entity list in enumeration order; with
a truthy limit the loop stops at `limit` items and the result is
`out.slice(0, limit)`, otherwise the full list is returned.  The
space's entity list is supplied by the environment. -/
def listAllEntities (spaceEntities : List EntityNode) (limit : Option Nat) : List EntityNode :=
  match truthy limit with
  | some l => spaceEntities.take l
  | none => spaceEntities

/-- Net effect of `listAllRelations(spaceId, limit)`
(`clear-dao-space.ts:276-308`, identical in `clear-personal-space.ts`). -/
def listAllRelations (spaceRelations : List RelationNode) (limit : Option Nat) : List RelationNode :=
  match truthy limit with
  | some l => spaceRelations.take l
  | none => spaceRelations

/-- Fuel-driven worker for `chunk`; the fuel bounds the number of loop
iterations (at most one per list element once `0 < n`). -/
def chunkGo (n : Nat) : Nat → List α → List (List α)
  | 0, _ => []
  | fuel + 1, l => if l.isEmpty then [] else l.take n :: chunkGo n fuel (l.drop n)

/-- `chunk<T>(arr, size)` (`clear-dao-space.ts:122-126`,
`clear-personal-space.ts:102-106`): slice the array into consecutive
pieces of `size` elements.  The source loop (`for i += size`) terminates
only for a positive size — with `size = 0` it would never advance — so the
model is specified for `0 < n` and returns `[]` at `n = 0`. -/
def chunk (l : List α) (n : Nat) : List (List α) :=
  if n = 0 then [] else chunkGo n l.length l

/-- Kind tag of a deletion descriptor. -/
inductive DKind where
  | relation
  | entity
deriving DecidableEq, Repr

/-- One element of the `deletions` list (`clear-dao-space.ts:618-621`,
`clear-personal-space.ts:545-548`): `{kind, id, propertyIds?}`. -/
structure Deletion where
  kind : DKind
  id : String
  propertyIds : Option (List String)
deriving DecidableEq, Repr

/-- `{ kind: 'relation', id: r.id }`. -/
def relationDeletion (r : RelationNode) : Deletion :=
  { kind := DKind.relation, id := r.id, propertyIds := none }

/-- `{ kind: 'entity', id: e.id, propertyIds: e.propertyIds }`. -/
def entityDeletion (e : EntityNode) : Deletion :=
  { kind := DKind.entity, id := e.id, propertyIds := some e.propertyIds }

/-- The `deletions` list: all relation descriptors, then all entity
descriptors (`clear-dao-space.ts:618-621`, `clear-personal-space.ts:545-548`). -/
def deletionsFor (rels : List RelationNode) (ents : List EntityNode) : List Deletion :=
  rels.map relationDeletion ++ ents.map entityDeletion

/-- A logical graph-mutation operation, one per SDK builder call. -/
inductive Op where
  | author (payload : String)
  | deleteRelationOp (id : String)
  | unsetValues (id : String) (propertyIds : List String)
  | deleteEntityOp (id : String)
deriving DecidableEq, Repr

/-- Is this op part of an author-creation (`Account.make`) op list? -/
def isAuthorOp : Op → Bool
  | Op.author _ => true
  | _ => false

/-- Ops built for one deletion descriptor inside the batch loop
(`clear-dao-space.ts:661-677`, `clear-personal-space.ts:586-601`):
a relation yields one `deleteRelation` op; an entity yields an
`updateEntity`-unset op when it has at least one property value, then a
`deleteEntity` op. -/
def opsForItem (d : Deletion) : List Op :=
  match d.kind with
  | DKind.relation => [Op.deleteRelationOp d.id]
  | DKind.entity =>
    (match d.propertyIds with
     | some ps => if ps.isEmpty then [] else [Op.unsetValues d.id ps]
     | none => []) ++ [Op.deleteEntityOp d.id]

/-- The op list built for one batch (the `ops` accumulator of the batch loop). -/
def buildOps (batch : List Deletion) : List Op :=
  batch.flatMap opsForItem

/-- `totalOpsEstimate = relations.length + entities.length * 2`
(`clear-dao-space.ts:625`, `clear-personal-space.ts:550`). -/
def totalOpsEstimate (relations : List RelationNode) (entities : List EntityNode) : Nat :=
  relations.length + entities.length * 2

/-- The operation-count formula stated by the spec (§4.2/§8): relations
cost 1, every entity costs 1, and each entity with at least one property
value costs 1 more.  Stated from the spec's words, for comparison with
`totalOpsEstimate`. -/
def specOpsEstimate (relations : List RelationNode) (entities : List EntityNode) : Nat :=
  relations.length + entities.length +
    entities.countP (fun e => !e.propertyIds.isEmpty)

/-- The combined-cap trimming step (`clear-dao-space.ts:570-582`,
`clear-personal-space.ts:498-510`), run with the truthy effective limit:
when the fetched relations plus entities exceed the cap, either the
relations alone reach the cap (take `l` relations, drop all entities) or
the entities are truncated to `l - relations.length`. -/
def trimToLimit (effLimit : Option Nat) (rels : List RelationNode) (ents : List EntityNode) :
    List RelationNode × List EntityNode :=
  match effLimit with
  | none => (rels, ents)
  | some l =>
    if rels.length + ents.length > l then
      if rels.length ≥ l then (rels.take l, [])
      else (rels, ents.take (l - rels.length))
    else (rels, ents)

/-- The progress-log entry appended once per full pass
(`clear-dao-space.ts:786-797`, `clear-personal-space.ts:666-677`).  The
wall-clock timestamp is omitted and `elapsedMs` is modelled as `0`. -/
structure ProgressRecord where
  batchSize : Nat
  entitiesBefore : Nat
  relationsBefore : Nat
  entitiesAfter : Nat
  relationsAfter : Nat
  opsAttempted : Nat
  batchesCompleted : Nat
  batchesFailed : Nat
  elapsedMs : Nat
deriving DecidableEq, Repr

/-- Observable actions of a pass.  Transaction events carry the index of
the batch that produced them; propose/publish events also carry the op
payload handed to the SDK. -/
inductive Ev where
  | proposeTx (batch : Nat) (ops : List Op)
  | voteTx (batch : Nat)
  | execTx (batch : Nat)
  | publishTx (batch : Nat) (ops : List Op)
  | prompt
  | logWrite (record : ProgressRecord)
deriving DecidableEq, Repr

/-- Is the event a write transaction (`smartAccount.sendTransaction`)? -/
def isTxEv : Ev → Bool
  | Ev.proposeTx _ _ => true
  | Ev.voteTx _ => true
  | Ev.execTx _ => true
  | Ev.publishTx _ _ => true
  | _ => false

/-- Is the event the confirmation prompt? -/
def isPromptEv : Ev → Bool
  | Ev.prompt => true
  | _ => false

/-- Is the event a progress-log append (`writeProgressLog`)? -/
def isLogWriteEv : Ev → Bool
  | Ev.logWrite _ => true
  | _ => false

def isProposeTxFor (k : Nat) : Ev → Bool
  | Ev.proposeTx j _ => j == k
  | _ => false

def isVoteTxFor (k : Nat) : Ev → Bool
  | Ev.voteTx j => j == k
  | _ => false

def isExecTxFor (k : Nat) : Ev → Bool
  | Ev.execTx j => j == k
  | _ => false

/-- The result record of `runDeletionPass` (`PassResult`,
`clear-dao-space.ts:505-513`, `clear-personal-space.ts:419-427`). -/
structure PassResult where
  aborted : Bool
  opsAttempted : Nat
  batchesCompleted : Nat
  batchesFailed : Nat
  elapsedMs : Nat
  countsBefore : Counts
  countsAfter : Counts
deriving DecidableEq, Repr

/-- The `empty` template result (`clear-dao-space.ts:523-528`). -/
def emptyPassResult : PassResult :=
  { aborted := false, opsAttempted := 0, batchesCompleted := 0, batchesFailed := 0,
    elapsedMs := 0, countsBefore := { entities := 0, relations := 0 },
    countsAfter := { entities := 0, relations := 0 } }

/-- A pass together with its event trace; `plannedBatches` records how
many batches the pass planned (`batches.length`, or `0` on the paths that
return before planning). -/
structure PassOut where
  result : PassResult
  trace : List Ev
  plannedBatches : Nat
deriving DecidableEq, Repr

/-- The continuation test of the `--all` drain loop, negated
(`clear-dao-space.ts:458-466`, `clear-personal-space.ts:369-377`): the
loop breaks when the after-counts are both zero or the pass attempted no
ops. -/
def drainStops (r : PassResult) : Bool :=
  (decide (r.countsAfter.entities = 0) && decide (r.countsAfter.relations = 0)) ||
    decide (r.opsAttempted = 0)

/-- Environment of one pass, parameterised by the per-batch outcome type:
the values the GraphQL endpoint, the chain, the SDK and the operator
supply during the pass. -/
structure Env (O : Type) where
  countsBefore : Counts
  countsAfter : Counts
  spaceEntities : List EntityNode
  spaceRelations : List RelationNode
  existingAccountId : Option String
  accountMakeId : String
  accountMakeOps : List String
  confirmAnswer : Bool
  oracle : Nat → O

/-- Account resolution before the batch loop (`clear-dao-space.ts:634-646`,
`clear-personal-space.ts:558-571`): reuse the found account with an empty
creation-op list, or take `Account.make`'s creation ops. -/
def accountOpsUsed {O : Type} (env : Env O) : List Op :=
  match env.existingAccountId with
  | some _ => []
  | none => env.accountMakeOps.map Op.author

/-- `const allOps = i === 0 && accountOps.length > 0 ? [...accountOps, ...ops] : ops;`
(`clear-dao-space.ts:679`, `clear-personal-space.ts:603`). -/
def allOpsFor (accountOps : List Op) (i : Nat) (ops : List Op) : List Op :=
  if i = 0 ∧ accountOps.length > 0 then accountOps ++ ops else ops

/-- Outcome of one awaited transaction step: it throws before the
transaction is submitted, throws after submission (e.g. while waiting for
the receipt), or completes. -/
inductive TxOutcome where
  | failBefore
  | failAfter
  | ok
deriving DecidableEq, Repr

/-- Outcome of one read-only contract call: it throws, or returns a
boolean. -/
inductive ReadOutcome where
  | fail
  | val (b : Bool)
deriving DecidableEq, Repr

/-- Environment outcomes for one governed batch
(`clear-dao-space.ts:659-743`): whether op building throws, and the
outcome of the propose transaction, the vote transaction, the
`getLatestProposalInformation` executed-flag read, the
`isSupportThresholdReached` read, and the execute transaction. -/
structure DaoBatchOracle where
  buildThrows : Bool
  propose : TxOutcome
  vote : TxOutcome
  execInfo : ReadOutcome
  threshold : ReadOutcome
  exec : TxOutcome
deriving DecidableEq, Repr

/-- One governed batch (the `try` block, `clear-dao-space.ts:659-743`):
build ops, propose, vote, check auto-execution, check threshold, execute
if reached.  Returns whether the batch completed without a throw, and the
transactions submitted.  In the pending-threshold branch the script only
logs and falls through to `completedBatches++`. -/
def runDaoBatch (o : DaoBatchOracle) (i : Nat) (ops : List Op) : Bool × List Ev :=
  if o.buildThrows then (false, [])
  else
    match o.propose with
    | TxOutcome.failBefore => (false, [])
    | TxOutcome.failAfter => (false, [Ev.proposeTx i ops])
    | TxOutcome.ok =>
      match o.vote with
      | TxOutcome.failBefore => (false, [Ev.proposeTx i ops])
      | TxOutcome.failAfter => (false, [Ev.proposeTx i ops, Ev.voteTx i])
      | TxOutcome.ok =>
        match o.execInfo with
        | ReadOutcome.fail => (false, [Ev.proposeTx i ops, Ev.voteTx i])
        | ReadOutcome.val true => (true, [Ev.proposeTx i ops, Ev.voteTx i])
        | ReadOutcome.val false =>
          match o.threshold with
          | ReadOutcome.fail => (false, [Ev.proposeTx i ops, Ev.voteTx i])
          | ReadOutcome.val true =>
            match o.exec with
            | TxOutcome.failBefore => (false, [Ev.proposeTx i ops, Ev.voteTx i])
            | TxOutcome.failAfter =>
              (false, [Ev.proposeTx i ops, Ev.voteTx i, Ev.execTx i])
            | TxOutcome.ok => (true, [Ev.proposeTx i ops, Ev.voteTx i, Ev.execTx i])
          | ReadOutcome.val false => (true, [Ev.proposeTx i ops, Ev.voteTx i])

/-- The oracle shape of claim C5: propose and vote confirm, the proposal
is not auto-executed, and the support threshold is not reached. -/
def pendingShape (o : DaoBatchOracle) : Prop :=
  o.buildThrows = false ∧ o.propose = TxOutcome.ok ∧ o.vote = TxOutcome.ok ∧
    o.execInfo = ReadOutcome.val false ∧ o.threshold = ReadOutcome.val false

instance (o : DaoBatchOracle) : Decidable (pendingShape o) := by
  unfold pendingShape
  infer_instance

/-- Accumulated outcome of the batch loop. -/
structure DriveOut where
  completed : Nat
  failed : Nat
  events : List Ev
deriving DecidableEq, Repr

/-- The governed batch loop (`clear-dao-space.ts:653-754`): batches are
driven strictly sequentially; a throw anywhere inside a batch's `try`
block increments `failedBatches`, otherwise `completedBatches`, and the
loop always proceeds to the next batch. -/
def driveDaoBatches (oracle : Nat → DaoBatchOracle) (accountOps : List Op) (i : Nat) :
    List (List Deletion) → DriveOut
  | [] => { completed := 0, failed := 0, events := [] }
  | b :: rest =>
    let r := runDaoBatch (oracle i) i (allOpsFor accountOps i (buildOps b))
    let d := driveDaoBatches oracle accountOps (i + 1) rest
    { completed := (if r.1 then 1 else 0) + d.completed,
      failed := (if r.1 then 0 else 1) + d.failed,
      events := r.2 ++ d.events }

namespace Dao

/-- CLI-derived module state of `clear-dao-space.ts`
(`DRY_RUN`, `LIMIT`, `TOTAL_LIMIT`, `YES`, `BATCH_SIZE`;
`clear-dao-space.ts:81-101`). -/
structure Cfg where
  dryRun : Bool
  limit : Option Nat
  totalLimit : Option Nat
  yes : Bool
  batchSize : Nat
deriving DecidableEq, Repr

/-- The `opts` of `runDeletionPass` beyond the clients
(`clear-dao-space.ts:515-520`). -/
structure PassOpts where
  chunkLimit : Option Nat
  skipConfirm : Bool
deriving DecidableEq, Repr

/-- `const effectiveLimit = chunkLimit ?? (TOTAL_LIMIT ?? undefined);`
(`clear-dao-space.ts:537`), normalised by the truthiness test
`if (effectiveLimit)` applied at both of its use sites. -/
def effectiveLimit (cfg : Cfg) (opts : PassOpts) : Option Nat :=
  truthy (opts.chunkLimit.orElse fun _ => cfg.totalLimit)

/-- Steps 1-2 of the pass (`clear-dao-space.ts:537-582`): per-type limits,
entity enumeration plus Account/address filtering, relation enumeration,
and the combined-cap trim. -/
def enumerate (cfg : Cfg) (opts : PassOpts) (env : Env DaoBatchOracle) :
    List RelationNode × List EntityNode :=
  let eff := effectiveLimit cfg opts
  let entityLimit := match eff with
    | some l => some l
    | none => cfg.limit
  let relationLimit := entityLimit
  let entities := (listAllEntities env.spaceEntities entityLimit).filter keepNonAccountEntity
  let relations := listAllRelations env.spaceRelations relationLimit
  trimToLimit eff relations entities

/-- `totalOps` of the pass after filtering and trimming
(`clear-dao-space.ts:584`). -/
def totalOpsOf (cfg : Cfg) (opts : PassOpts) (env : Env DaoBatchOracle) : Nat :=
  (enumerate cfg opts env).1.length + (enumerate cfg opts env).2.length

/-- `runDeletionPass` of `clear-dao-space.ts` (lines 515-809): before
counts, enumeration, trim, the dry-run and nothing-to-delete early
returns, the confirmation prompt, batch planning, account resolution, the
propose/vote/execute loop, post-verification, and the progress-log
append. -/
def runDeletionPass (cfg : Cfg) (opts : PassOpts) (env : Env DaoBatchOracle) : PassOut :=
  let countsBefore := env.countsBefore
  let re := enumerate cfg opts env
  let relations := re.1
  let entities := re.2
  let totalOps := relations.length + entities.length
  if cfg.dryRun then
    { result := { emptyPassResult with
        aborted := true
        countsBefore := countsBefore
        countsAfter := countsBefore }
      trace := []
      plannedBatches := 0 }
  else if totalOps = 0 then
    { result := { emptyPassResult with
        countsBefore := countsBefore
        countsAfter := countsBefore }
      trace := []
      plannedBatches := 0 }
  else
    let needPrompt := !opts.skipConfirm && !cfg.yes && decide (totalOps > CONFIRM_THRESHOLD)
    if needPrompt && !env.confirmAnswer then
      { result := { emptyPassResult with
          aborted := true
          countsBefore := countsBefore
          countsAfter := countsBefore }
        trace := [Ev.prompt]
        plannedBatches := 0 }
    else
      let promptEvs := if needPrompt then [Ev.prompt] else []
      let deletions := deletionsFor relations entities
      let batches := chunk deletions cfg.batchSize
      let accountOps := accountOpsUsed env
      let d := driveDaoBatches env.oracle accountOps 0 batches
      let record : ProgressRecord :=
        { batchSize := cfg.batchSize
          entitiesBefore := countsBefore.entities
          relationsBefore := countsBefore.relations
          entitiesAfter := env.countsAfter.entities
          relationsAfter := env.countsAfter.relations
          opsAttempted := deletions.length
          batchesCompleted := d.completed
          batchesFailed := d.failed
          elapsedMs := 0 }
      { result :=
          { aborted := false
            opsAttempted := deletions.length
            batchesCompleted := d.completed
            batchesFailed := d.failed
            elapsedMs := 0
            countsBefore := countsBefore
            countsAfter := env.countsAfter }
        trace := promptEvs ++ d.events ++ [Ev.logWrite record]
        plannedBatches := batches.length }

/-- The pass options used by the `--all` drain loop
(`clear-dao-space.ts:450-452`): 50 000-item chunks, confirmation skipped. -/
def drainOpts : PassOpts :=
  { chunkLimit := some 50000, skipConfirm := true }

/-- The pass options used by single-pass mode (`clear-dao-space.ts:490-492`):
the `--total-limit` value as chunk limit, confirmation not skipped. -/
def singleOpts (cfg : Cfg) : PassOpts :=
  { chunkLimit := cfg.totalLimit, skipConfirm := false }

/-- The no-limit dry-run fast path of `main` (`clear-dao-space.ts:405-420`):
query total counts, report `relations + entities` ops across
`ceil(totalOps / batchSize)` batches, submit nothing. -/
def dryRunFastPath (counts : Counts) (batchSize : Nat) : (Nat × Nat) × List Ev :=
  let totalOps := counts.relations + counts.entities
  ((totalOps, (totalOps + batchSize - 1) / batchSize), [])

end Dao

/-- Environment outcomes for one direct-publish batch
(`clear-personal-space.ts:584-623`): whether op building throws, and
whether `publishEdit`/`sendTransaction` throws before the transaction is
submitted.  After `sendTransaction` resolves the batch only logs, so no
post-submission failure point exists. -/
structure PersonalBatchOracle where
  buildThrows : Bool
  publishThrows : Bool
deriving DecidableEq, Repr

namespace Personal

/-- One direct-publish batch (the `try` block,
`clear-personal-space.ts:584-623`). -/
def runBatch (o : PersonalBatchOracle) (i : Nat) (ops : List Op) : Bool × List Ev :=
  if o.buildThrows then (false, [])
  else if o.publishThrows then (false, [])
  else (true, [Ev.publishTx i ops])

/-- The direct-publish batch loop (`clear-personal-space.ts:578-634`). -/
def driveBatches (oracle : Nat → PersonalBatchOracle) (accountOps : List Op) (i : Nat) :
    List (List Deletion) → DriveOut
  | [] => { completed := 0, failed := 0, events := [] }
  | b :: rest =>
    let r := runBatch (oracle i) i (allOpsFor accountOps i (buildOps b))
    let d := driveBatches oracle accountOps (i + 1) rest
    { completed := (if r.1 then 1 else 0) + d.completed,
      failed := (if r.1 then 0 else 1) + d.failed,
      events := r.2 ++ d.events }

/-- CLI-derived module state of `clear-personal-space.ts`
(`clear-personal-space.ts:62-85`). -/
structure Cfg where
  dryRun : Bool
  limit : Option Nat
  totalLimit : Option Nat
  yes : Bool
  includeAccounts : Bool
  batchSize : Nat
  typeFilter : Option String
  excludeTypeFilter : Option String
deriving DecidableEq, Repr

/-- The `opts` of the personal `runDeletionPass` beyond the clients and
space ids (`clear-personal-space.ts:429-435`). -/
structure PassOpts where
  chunkLimit : Option Nat
  skipConfirm : Bool
deriving DecidableEq, Repr

/-- `const effectiveLimit = chunkLimit ?? (TOTAL_LIMIT ?? undefined);`
(`clear-personal-space.ts:452`) under the truthiness test of its use
sites. -/
def effectiveLimit (cfg : Cfg) (opts : PassOpts) : Option Nat :=
  truthy (opts.chunkLimit.orElse fun _ => cfg.totalLimit)

/-- Steps 1-2 of the personal pass (`clear-personal-space.ts:452-510`):
limits, entity enumeration, the Account/address filter (unless
`--include-accounts`), the `--type` and `--exclude-type` filters
(skipped for falsy values), relation enumeration, and the combined-cap
trim. -/
def enumerate (cfg : Cfg) (opts : PassOpts) (env : Env PersonalBatchOracle) :
    List RelationNode × List EntityNode :=
  let eff := effectiveLimit cfg opts
  let entityLimit := match eff with
    | some l => some l
    | none => cfg.limit
  let relationLimit := entityLimit
  let ents0 := listAllEntities env.spaceEntities entityLimit
  let ents1 := if !cfg.includeAccounts then ents0.filter keepNonAccountEntity else ents0
  let ents2 := match truthyStr cfg.typeFilter with
    | some t => ents1.filter fun e => e.typeIds.contains t
    | none => ents1
  let ents3 := match truthyStr cfg.excludeTypeFilter with
    | some t => ents2.filter fun e => !(e.typeIds.contains t)
    | none => ents2
  let relations := listAllRelations env.spaceRelations relationLimit
  trimToLimit eff relations ents3

/-- `totalOps` of the personal pass after filtering and trimming
(`clear-personal-space.ts:512`). -/
def totalOpsOf (cfg : Cfg) (opts : PassOpts) (env : Env PersonalBatchOracle) : Nat :=
  (enumerate cfg opts env).1.length + (enumerate cfg opts env).2.length

/-- `runDeletionPass` of `clear-personal-space.ts` (lines 429-689). -/
def runDeletionPass (cfg : Cfg) (opts : PassOpts) (env : Env PersonalBatchOracle) : PassOut :=
  let countsBefore := env.countsBefore
  let re := enumerate cfg opts env
  let relations := re.1
  let entities := re.2
  let totalOps := relations.length + entities.length
  if cfg.dryRun then
    { result := { emptyPassResult with
        aborted := true
        countsBefore := countsBefore
        countsAfter := countsBefore }
      trace := []
      plannedBatches := 0 }
  else if totalOps = 0 then
    { result := { emptyPassResult with
        countsBefore := countsBefore
        countsAfter := countsBefore }
      trace := []
      plannedBatches := 0 }
  else
    let needPrompt := !opts.skipConfirm && !cfg.yes && decide (totalOps > CONFIRM_THRESHOLD)
    if needPrompt && !env.confirmAnswer then
      { result := { emptyPassResult with
          aborted := true
          countsBefore := countsBefore
          countsAfter := countsBefore }
        trace := [Ev.prompt]
        plannedBatches := 0 }
    else
      let promptEvs := if needPrompt then [Ev.prompt] else []
      let deletions := deletionsFor relations entities
      let batches := chunk deletions cfg.batchSize
      let accountOps := accountOpsUsed env
      let d := driveBatches env.oracle accountOps 0 batches
      let record : ProgressRecord :=
        { batchSize := cfg.batchSize
          entitiesBefore := countsBefore.entities
          relationsBefore := countsBefore.relations
          entitiesAfter := env.countsAfter.entities
          relationsAfter := env.countsAfter.relations
          opsAttempted := deletions.length
          batchesCompleted := d.completed
          batchesFailed := d.failed
          elapsedMs := 0 }
      { result :=
          { aborted := false
            opsAttempted := deletions.length
            batchesCompleted := d.completed
            batchesFailed := d.failed
            elapsedMs := 0
            countsBefore := countsBefore
            countsAfter := env.countsAfter }
        trace := promptEvs ++ d.events ++ [Ev.logWrite record]
        plannedBatches := batches.length }

/-- Drain-loop pass options (`clear-personal-space.ts:360-363`). -/
def drainOpts : PassOpts :=
  { chunkLimit := some 50000, skipConfirm := true }

/-- Single-pass options (`clear-personal-space.ts:401-404`). -/
def singleOpts (cfg : Cfg) : PassOpts :=
  { chunkLimit := cfg.totalLimit, skipConfirm := false }

/-- The no-limit no-filter dry-run fast path of the personal `main`
(`clear-personal-space.ts:329-344`). -/
def dryRunFastPath (counts : Counts) (batchSize : Nat) : (Nat × Nat) × List Ev :=
  let totalOps := counts.relations + counts.entities
  ((totalOps, (totalOps + batchSize - 1) / batchSize), [])

end Personal

/-- `findExistingAccountId` (`clear-dao-space.ts:219-238`,
`clear-personal-space.ts:199-218`): scan the 10 most-recently-updated
entities of the space (the argument list is in `UPDATED_AT_DESC` order)
for one carrying the Account type, or failing that one named after a
wallet address, and return its id. -/
def findExistingAccountId (nodes : List EntityNode) : Option String :=
  (nodes.take 10).findSome? fun n =>
    if n.typeIds.contains ACCOUNT_TYPE_ID then some n.id
    else
      match n.name with
      | some nm => if isEthAddressName nm then some n.id else none
      | none => none

/-- The account entity that `Account.make(address)` creates once its ops
execute: an entity of the Account type named after the wallet address
(`clear-dao-space.ts:63-65`: "entities of this type are created by
Account.make() in every proposal"). -/
def accountEntityFor (accountId address : String) : EntityNode :=
  { id := accountId, name := some address, typeIds := [ACCOUNT_TYPE_ID], propertyIds := [] }

/-- One author-resolution step of a run (`clear-dao-space.ts:634-646`):
`findExistingAccountId`, and `Account.make` only when the lookup returns
null.  The space state is the entity list in most-recently-updated-first
order; executing the creation ops is modelled, per the external read
API's ordering contract, as the created account entity becoming the
most-recently-updated entity of the space.  Returns the author id, a flag
recording whether a creation happened, and the new space state. -/
def resolveAuthor (address freshId : String) (s : List EntityNode) :
    String × Bool × List EntityNode :=
  match findExistingAccountId s with
  | some id => (id, false, s)
  | none => (freshId, true, accountEntityFor freshId address :: s)

/-- `n` successive author-resolution runs against the same space, the
`k`-th run using `fresh k` as the id a fresh `Account.make` would mint.
Returns the (authorId, created?) pair of every run in order. -/
def authorRuns (address : String) (fresh : Nat → String) :
    Nat → Nat → List EntityNode → List (String × Bool)
  | _, 0, _ => []
  | k, n + 1, s =>
    let r := resolveAuthor address (fresh k) s
    (r.1, r.2.1) :: authorRuns address fresh (k + 1) n r.2.2

/-! ### Lemmas about `chunk` -/

theorem chunkGo_zero_of_nil (n fuel : Nat) : chunkGo (α := α) n fuel [] = [] := by
  cases fuel <;> simp [chunkGo]

theorem chunkGo_fuel_irrel (n : Nat) (hn : 0 < n) :
    ∀ f1 f2 (l : List α), l.length ≤ f1 → l.length ≤ f2 →
      chunkGo n f1 l = chunkGo n f2 l := by
  intro f1
  induction f1 with
  | zero =>
    intro f2 l h1 _
    have : l = [] := List.eq_nil_of_length_eq_zero (Nat.le_zero.mp h1)
    subst this
    simp [chunkGo, chunkGo_zero_of_nil]
  | succ a ih =>
    intro f2 l h1 h2
    cases l with
    | nil => simp [chunkGo_zero_of_nil]
    | cons x xs =>
      cases f2 with
      | zero => simp at h2
      | succ b =>
        simp only [chunkGo, List.isEmpty_cons, if_neg]
        have hlen : ((x :: xs).drop n).length ≤ a := by
          simp only [List.length_drop, List.length_cons] at *
          omega
        have hlen2 : ((x :: xs).drop n).length ≤ b := by
          simp only [List.length_drop, List.length_cons] at *
          omega
        rw [ih b _ hlen hlen2]

theorem chunk_nil (n : Nat) : chunk ([] : List α) n = [] := by
  unfold chunk
  split
  · rfl
  · simp [chunkGo_zero_of_nil]

theorem chunk_cons (l : List α) (n : Nat) (hn : 0 < n) (hl : l ≠ []) :
    chunk l n = l.take n :: chunk (l.drop n) n := by
  unfold chunk
  rw [if_neg (Nat.pos_iff_ne_zero.mp hn), if_neg (Nat.pos_iff_ne_zero.mp hn)]
  obtain ⟨x, xs, rfl⟩ := List.exists_cons_of_ne_nil hl
  have h1 : ((x :: xs).drop n).length ≤ xs.length := by
    simp only [List.length_drop, List.length_cons]
    omega
  have hfi := chunkGo_fuel_irrel n hn xs.length ((x :: xs).drop n).length
    ((x :: xs).drop n) h1 (Nat.le_refl _)
  simp [chunkGo, hfi]

theorem chunk_ne_nil (l : List α) (n : Nat) (hn : 0 < n) (hl : l ≠ []) :
    chunk l n ≠ [] := by
  rw [chunk_cons l n hn hl]
  simp

theorem chunk_flatten (l : List α) (n : Nat) (hn : 0 < n) : (chunk l n).flatten = l := by
  by_cases hl : l = []
  · subst hl
    simp [chunk_nil]
  · rw [chunk_cons l n hn hl]
    have ih := chunk_flatten (l.drop n) n hn
    simp only [List.flatten_cons, ih, List.take_append_drop]
termination_by l.length
decreasing_by
  simp only [List.length_drop]
  have : 0 < l.length := List.length_pos.mpr hl
  omega

theorem chunk_dropLast_length (l : List α) (n : Nat) (hn : 0 < n) :
    ∀ b ∈ (chunk l n).dropLast, b.length = n := by
  by_cases hl : l = []
  · subst hl
    simp [chunk_nil]
  · rw [chunk_cons l n hn hl]
    by_cases hd : l.drop n = []
    · rw [hd, chunk_nil]
      simp
    · have hrest : chunk (l.drop n) n ≠ [] := chunk_ne_nil _ n hn hd
      rw [List.dropLast_cons_of_ne_nil hrest]
      intro b hb
      rcases List.mem_cons.mp hb with h | h
      · subst h
        have : n < l.length := by
          by_contra hle
          exact hd (List.drop_eq_nil_of_le (Nat.le_of_not_lt hle))
        simp [List.length_take]
        omega
      · exact chunk_dropLast_length (l.drop n) n hn b h
termination_by l.length
decreasing_by
  simp only [List.length_drop]
  have : 0 < l.length := List.length_pos.mpr hl
  omega

theorem getLastD_irrel (l : List β) (d1 d2 : β) (h : l ≠ []) :
    l.getLastD d1 = l.getLastD d2 := by
  induction l with
  | nil => exact absurd rfl h
  | cons x xs ih =>
    cases xs with
    | nil => rfl
    | cons y ys => simp only [List.getLastD_cons]

theorem chunk_getLastD_length (l : List α) (n : Nat) (hn : 0 < n) :
    ((chunk l n).getLastD []).length = l.length - ((chunk l n).length - 1) * n := by
  by_cases hl : l = []
  · subst hl
    simp [chunk_nil]
  · rw [chunk_cons l n hn hl]
    by_cases hd : l.drop n = []
    · rw [hd, chunk_nil]
      have hle : l.length ≤ n := by
        have := congrArg List.length hd
        simp only [List.length_drop, List.length_nil] at this
        omega
      simp [List.length_take]
      omega
    · have hrest : chunk (l.drop n) n ≠ [] := chunk_ne_nil _ n hn hd
      have hcons : ((l.take n :: chunk (l.drop n) n).getLastD []) =
          (chunk (l.drop n) n).getLastD [] := by
        rw [List.getLastD_cons]
        exact getLastD_irrel _ _ _ hrest
      rw [hcons]
      have ih := chunk_getLastD_length (l.drop n) n hn
      rw [ih]
      have hk : 0 < (chunk (l.drop n) n).length := List.length_pos.mpr hrest
      have hlt : n < l.length := by
        by_contra hle
        exact hd (List.drop_eq_nil_of_le (Nat.le_of_not_lt hle))
      have hsucc : ((chunk (l.drop n) n).length - 1) * n + n =
          (chunk (l.drop n) n).length * n := by
        obtain ⟨m, hm⟩ : ∃ m, (chunk (l.drop n) n).length = m + 1 :=
          ⟨_, (Nat.succ_pred_eq_of_pos hk).symm⟩
        rw [hm]
        simp [Nat.succ_sub_one, Nat.succ_mul]
      simp only [List.length_drop, List.length_cons, Nat.add_sub_cancel]
      omega
termination_by l.length
decreasing_by
  simp only [List.length_drop]
  have : 0 < l.length := List.length_pos.mpr hl
  omega

/-! ### Lemmas about the deletion list and built ops -/

theorem opsForItem_relation (r : RelationNode) :
    opsForItem (relationDeletion r) = [Op.deleteRelationOp r.id] := rfl

theorem opsForItem_entity_length (e : EntityNode) :
    (opsForItem (entityDeletion e)).length = if e.propertyIds.isEmpty then 1 else 2 := by
  by_cases h : e.propertyIds.isEmpty <;>
    simp [opsForItem, entityDeletion, h]

theorem buildOps_append (l1 l2 : List Deletion) :
    buildOps (l1 ++ l2) = buildOps l1 ++ buildOps l2 := by
  simp [buildOps]

theorem buildOps_cons (d : Deletion) (ds : List Deletion) :
    buildOps (d :: ds) = opsForItem d ++ buildOps ds := by
  simp [buildOps]

theorem buildOps_rels_length (rels : List RelationNode) :
    (buildOps (rels.map relationDeletion)).length = rels.length := by
  induction rels with
  | nil => rfl
  | cons r rs ih =>
    rw [List.map_cons, buildOps_cons, List.length_append, ih,
      opsForItem_relation]
    simp only [List.length_cons, List.length_nil]
    omega

theorem buildOps_ents_length (ents : List EntityNode) :
    (buildOps (ents.map entityDeletion)).length =
      ents.length + ents.countP (fun e => !e.propertyIds.isEmpty) := by
  induction ents with
  | nil => rfl
  | cons e es ih =>
    rw [List.map_cons, buildOps_cons, List.length_append, ih,
      opsForItem_entity_length, List.countP_cons, List.length_cons]
    by_cases h : e.propertyIds.isEmpty <;> simp [h] <;> omega

theorem buildOps_deletions_length (rels : List RelationNode) (ents : List EntityNode) :
    (buildOps (deletionsFor rels ents)).length =
      rels.length + ents.length + ents.countP (fun e => !e.propertyIds.isEmpty) := by
  simp only [deletionsFor, buildOps_append, List.length_append,
    buildOps_rels_length, buildOps_ents_length]
  omega

theorem buildOps_no_author (dels : List Deletion) :
    (buildOps dels).countP isAuthorOp = 0 := by
  induction dels with
  | nil => rfl
  | cons d ds ih =>
    simp only [buildOps, List.flatMap_cons, List.countP_append]
    have hd : (opsForItem d).countP isAuthorOp = 0 := by
      rcases d with ⟨k, did, ps⟩
      cases k with
      | relation => simp [opsForItem, isAuthorOp]
      | entity =>
        rcases ps with _ | ps
        · simp [opsForItem, isAuthorOp]
        · by_cases h : ps.isEmpty <;> simp [opsForItem, isAuthorOp, h]
    simp only [buildOps] at ih
    omega

theorem deletionsFor_kinds (rels : List RelationNode) (ents : List EntityNode) :
    (deletionsFor rels ents).map Deletion.kind =
      List.replicate rels.length DKind.relation ++ List.replicate ents.length DKind.entity := by
  simp only [deletionsFor, List.map_append, List.map_map]
  congr 1
  · induction rels with
    | nil => rfl
    | cons r rs ih =>
      simp only [List.map_cons, List.length_cons, List.replicate_succ]
      rw [ih]
      rfl
  · induction ents with
    | nil => rfl
    | cons e es ih =>
      simp only [List.map_cons, List.length_cons, List.replicate_succ]
      rw [ih]
      rfl

theorem deletionsFor_length (rels : List RelationNode) (ents : List EntityNode) :
    (deletionsFor rels ents).length = rels.length + ents.length := by
  simp [deletionsFor]

/-- Scenario B computation: a 12 000-element list at batch size 5 000
splits into batches of sizes 5000, 5000, 2000. -/
theorem chunk_lengths_12000_5000 (l : List α) (hl : l.length = 12000) :
    (chunk l 5000).map List.length = [5000, 5000, 2000] := by
  have h5 : (0 : Nat) < 5000 := by norm_num
  have h1 : l ≠ [] := by
    intro h
    rw [h] at hl
    simp at hl
  rw [chunk_cons l 5000 h5 h1]
  have hd1 : (l.drop 5000).length = 7000 := by
    simp [List.length_drop, hl]
  have h2 : l.drop 5000 ≠ [] := by
    intro h
    rw [h] at hd1
    simp at hd1
  rw [chunk_cons (l.drop 5000) 5000 h5 h2]
  have hd2 : ((l.drop 5000).drop 5000).length = 2000 := by
    simp only [List.length_drop]
    omega
  have h3 : (l.drop 5000).drop 5000 ≠ [] := by
    intro h
    rw [h] at hd2
    simp at hd2
  rw [chunk_cons ((l.drop 5000).drop 5000) 5000 h5 h3]
  have h4 : ((l.drop 5000).drop 5000).drop 5000 = [] := by
    apply List.drop_eq_nil_of_le
    rw [hd2]
    norm_num
  rw [h4, chunk_nil]
  simp [List.length_take, hl, hd1, hd2]

/-! ### Lemmas about the batch drivers -/

theorem runDaoBatch_mem (o : DaoBatchOracle) (i : Nat) (ops : List Op) :
    ∀ e ∈ (runDaoBatch o i ops).2,
      e = Ev.proposeTx i ops ∨ e = Ev.voteTx i ∨ e = Ev.execTx i := by
  intro e he
  rcases o with ⟨bt, p, v, ei, th, ex⟩
  cases bt <;> cases p <;> cases v <;>
    rcases ei with _ | eb <;> (try cases eb) <;>
    rcases th with _ | tb <;> (try cases tb) <;> cases ex <;>
    simp [runDaoBatch] at he <;> tauto

theorem runDaoBatch_pending (o : DaoBatchOracle) (i : Nat) (ops : List Op)
    (h : pendingShape o) :
    runDaoBatch o i ops = (true, [Ev.proposeTx i ops, Ev.voteTx i]) := by
  obtain ⟨h1, h2, h3, h4, h5⟩ := h
  simp [runDaoBatch, h1, h2, h3, h4, h5]

theorem runPersonalBatch_mem (o : PersonalBatchOracle) (i : Nat) (ops : List Op) :
    ∀ e ∈ (Personal.runBatch o i ops).2, e = Ev.publishTx i ops := by
  intro e he
  rcases o with ⟨bt, pt⟩
  cases bt <;> cases pt <;> simp [Personal.runBatch] at he <;> tauto

theorem driveDao_count (oracle : Nat → DaoBatchOracle) (acc : List Op) :
    ∀ i bs, (driveDaoBatches oracle acc i bs).completed +
      (driveDaoBatches oracle acc i bs).failed = bs.length := by
  intro i bs
  induction bs generalizing i with
  | nil => rfl
  | cons b rest ih =>
    simp only [driveDaoBatches, List.length_cons]
    have := ih (i + 1)
    by_cases h : (runDaoBatch (oracle i) i (allOpsFor acc i (buildOps b))).1 <;>
      simp [h] <;> omega

theorem drivePersonal_count (oracle : Nat → PersonalBatchOracle) (acc : List Op) :
    ∀ i bs, (Personal.driveBatches oracle acc i bs).completed +
      (Personal.driveBatches oracle acc i bs).failed = bs.length := by
  intro i bs
  induction bs generalizing i with
  | nil => rfl
  | cons b rest ih =>
    simp only [Personal.driveBatches, List.length_cons]
    have := ih (i + 1)
    by_cases h : (Personal.runBatch (oracle i) i (allOpsFor acc i (buildOps b))).1 <;>
      simp [h] <;> omega

theorem driveDao_events_tx (oracle : Nat → DaoBatchOracle) (acc : List Op) :
    ∀ i bs e, e ∈ (driveDaoBatches oracle acc i bs).events → isTxEv e = true := by
  intro i bs
  induction bs generalizing i with
  | nil => intro e he; simp [driveDaoBatches] at he
  | cons b rest ih =>
    intro e he
    simp only [driveDaoBatches, List.mem_append] at he
    rcases he with h | h
    · rcases runDaoBatch_mem _ _ _ e h with h1 | h1 | h1 <;> subst h1 <;> rfl
    · exact ih (i + 1) e h

theorem drivePersonal_events_tx (oracle : Nat → PersonalBatchOracle) (acc : List Op) :
    ∀ i bs e, e ∈ (Personal.driveBatches oracle acc i bs).events → isTxEv e = true := by
  intro i bs
  induction bs generalizing i with
  | nil => intro e he; simp [Personal.driveBatches] at he
  | cons b rest ih =>
    intro e he
    simp only [Personal.driveBatches, List.mem_append] at he
    rcases he with h | h
    · rw [runPersonalBatch_mem _ _ _ e h]; rfl
    · exact ih (i + 1) e h

theorem driveDao_countP_zero (oracle : Nat → DaoBatchOracle) (acc : List Op)
    (p : Ev → Bool) (k : Nat)
    (hzero : ∀ j ops, j ≠ k → ((runDaoBatch (oracle j) j ops).2.countP p) = 0) :
    ∀ i bs, k < i → (driveDaoBatches oracle acc i bs).events.countP p = 0 := by
  intro i bs
  induction bs generalizing i with
  | nil => intro _; rfl
  | cons b rest ih =>
    intro hk
    simp only [driveDaoBatches, List.countP_append]
    rw [hzero i _ (by omega), ih (i + 1) (by omega)]

theorem driveDao_countP_single (oracle : Nat → DaoBatchOracle) (acc : List Op)
    (p : Ev → Bool) (k : Nat)
    (hzero : ∀ j ops, j ≠ k → ((runDaoBatch (oracle j) j ops).2.countP p) = 0) :
    ∀ i bs, i ≤ k → k < i + bs.length →
      (driveDaoBatches oracle acc i bs).events.countP p =
        ((runDaoBatch (oracle k) k (allOpsFor acc k (buildOps (bs.getD (k - i) [])))).2.countP p) := by
  intro i bs
  induction bs generalizing i with
  | nil =>
    intro h1 h2
    simp at h2
    omega
  | cons b rest ih =>
    intro h1 h2
    simp only [driveDaoBatches, List.countP_append]
    by_cases hik : i = k
    · subst hik
      have ht : (driveDaoBatches oracle acc (i + 1) rest).events.countP p = 0 :=
        driveDao_countP_zero oracle acc p i hzero (i + 1) rest (by omega)
      rw [ht]
      simp [List.getD]
    · have hik2 : i + 1 ≤ k := by omega
      have hb : k < (i + 1) + rest.length := by
        simp only [List.length_cons] at h2
        omega
      rw [hzero i _ hik, ih (i + 1) hik2 hb]
      have hgd : (b :: rest).getD (k - i) [] = rest.getD (k - (i + 1)) [] := by
        have : k - i = (k - (i + 1)) + 1 := by omega
        rw [this]
        rfl
      rw [hgd]
      omega

theorem driveDao_completed_pos (oracle : Nat → DaoBatchOracle) (acc : List Op) (k : Nat)
    (hs : ∀ ops, (runDaoBatch (oracle k) k ops).1 = true) :
    ∀ i bs, i ≤ k → k < i + bs.length →
      1 ≤ (driveDaoBatches oracle acc i bs).completed := by
  intro i bs
  induction bs generalizing i with
  | nil =>
    intro h1 h2
    simp at h2
    omega
  | cons b rest ih =>
    intro h1 h2
    simp only [driveDaoBatches]
    by_cases hik : i = k
    · subst hik
      rw [hs (allOpsFor acc i (buildOps b))]
      simp
    · have := ih (i + 1) (by omega) (by simp only [List.length_cons] at h2; omega)
      by_cases h : (runDaoBatch (oracle i) i (allOpsFor acc i (buildOps b))).1 <;>
        simp [h] <;> omega

theorem driveDao_propose_ops (oracle : Nat → DaoBatchOracle) (acc : List Op) :
    ∀ i bs k ops, Ev.proposeTx k ops ∈ (driveDaoBatches oracle acc i bs).events →
      i ≤ k ∧ k < i + bs.length ∧ ops = allOpsFor acc k (buildOps (bs.getD (k - i) [])) := by
  intro i bs
  induction bs generalizing i with
  | nil => intro k ops h; simp [driveDaoBatches] at h
  | cons b rest ih =>
    intro k ops h
    simp only [driveDaoBatches, List.mem_append] at h
    rcases h with h | h
    · rcases runDaoBatch_mem _ _ _ _ h with h1 | h1 | h1
      · have hk : k = i ∧ ops = allOpsFor acc i (buildOps b) := by
          cases h1
          exact ⟨rfl, rfl⟩
        obtain ⟨rfl, rfl⟩ := hk
        refine ⟨Nat.le_refl _, by simp, ?_⟩
        simp [List.getD]
      · cases h1
      · cases h1
    · obtain ⟨ha, hb, hc⟩ := ih (i + 1) k ops h
      refine ⟨by omega, by simp only [List.length_cons]; omega, ?_⟩
      have hgd : (b :: rest).getD (k - i) [] = rest.getD (k - (i + 1)) [] := by
        have : k - i = (k - (i + 1)) + 1 := by omega
        rw [this]
        rfl
      rw [hgd]
      exact hc

theorem drivePersonal_publish_ops (oracle : Nat → PersonalBatchOracle) (acc : List Op) :
    ∀ i bs k ops, Ev.publishTx k ops ∈ (Personal.driveBatches oracle acc i bs).events →
      i ≤ k ∧ k < i + bs.length ∧ ops = allOpsFor acc k (buildOps (bs.getD (k - i) [])) := by
  intro i bs
  induction bs generalizing i with
  | nil => intro k ops h; simp [Personal.driveBatches] at h
  | cons b rest ih =>
    intro k ops h
    simp only [Personal.driveBatches, List.mem_append] at h
    rcases h with h | h
    · have h1 := runPersonalBatch_mem _ _ _ _ h
      have hk : k = i ∧ ops = allOpsFor acc i (buildOps b) := by
        cases h1
        exact ⟨rfl, rfl⟩
      obtain ⟨rfl, rfl⟩ := hk
      refine ⟨Nat.le_refl _, by simp, ?_⟩
      simp [List.getD]
    · obtain ⟨ha, hb, hc⟩ := ih (i + 1) k ops h
      refine ⟨by omega, by simp only [List.length_cons]; omega, ?_⟩
      have hgd : (b :: rest).getD (k - i) [] = rest.getD (k - (i + 1)) [] := by
        have : k - i = (k - (i + 1)) + 1 := by omega
        rw [this]
        rfl
      rw [hgd]
      exact hc

/-! ### Pass-level lemmas -/

/-- Was the confirmation prompt shown during the pass? -/
def promptShown (out : PassOut) : Bool := out.trace.any isPromptEv

theorem isPromptEv_of_isTxEv (e : Ev) (h : isTxEv e = true) : isPromptEv e = false := by
  cases e <;> simp [isTxEv, isPromptEv] at h ⊢

theorem dao_pass_dryRun (cfg : Dao.Cfg) (opts : Dao.PassOpts) (env : Env DaoBatchOracle)
    (h : cfg.dryRun = true) :
    Dao.runDeletionPass cfg opts env =
      { result := { emptyPassResult with
          aborted := true
          countsBefore := env.countsBefore
          countsAfter := env.countsBefore }
        trace := []
        plannedBatches := 0 } := by
  simp [Dao.runDeletionPass, h]

theorem personal_pass_dryRun (cfg : Personal.Cfg) (opts : Personal.PassOpts)
    (env : Env PersonalBatchOracle) (h : cfg.dryRun = true) :
    Personal.runDeletionPass cfg opts env =
      { result := { emptyPassResult with
          aborted := true
          countsBefore := env.countsBefore
          countsAfter := env.countsBefore }
        trace := []
        plannedBatches := 0 } := by
  simp [Personal.runDeletionPass, h]

theorem dao_pass_empty (cfg : Dao.Cfg) (opts : Dao.PassOpts) (env : Env DaoBatchOracle)
    (h1 : cfg.dryRun = false) (h2 : Dao.totalOpsOf cfg opts env = 0) :
    Dao.runDeletionPass cfg opts env =
      { result := { emptyPassResult with
          countsBefore := env.countsBefore
          countsAfter := env.countsBefore }
        trace := []
        plannedBatches := 0 } := by
  unfold Dao.totalOpsOf at h2
  simp [Dao.runDeletionPass, h1, h2]

theorem dao_pass_counts (cfg : Dao.Cfg) (opts : Dao.PassOpts) (env : Env DaoBatchOracle) :
    (Dao.runDeletionPass cfg opts env).result.batchesCompleted +
      (Dao.runDeletionPass cfg opts env).result.batchesFailed =
      (Dao.runDeletionPass cfg opts env).plannedBatches := by
  simp only [Dao.runDeletionPass]
  split_ifs with h1 h2 h3 h4
  · simp [emptyPassResult]
  · simp [emptyPassResult]
  · simp [emptyPassResult]
  · simpa using driveDao_count env.oracle (accountOpsUsed env) 0 _
  · simpa using driveDao_count env.oracle (accountOpsUsed env) 0 _

theorem personal_pass_counts (cfg : Personal.Cfg) (opts : Personal.PassOpts)
    (env : Env PersonalBatchOracle) :
    (Personal.runDeletionPass cfg opts env).result.batchesCompleted +
      (Personal.runDeletionPass cfg opts env).result.batchesFailed =
      (Personal.runDeletionPass cfg opts env).plannedBatches := by
  simp only [Personal.runDeletionPass]
  split_ifs with h1 h2 h3 h4
  · simp [emptyPassResult]
  · simp [emptyPassResult]
  · simp [emptyPassResult]
  · simpa using drivePersonal_count env.oracle (accountOpsUsed env) 0 _
  · simpa using drivePersonal_count env.oracle (accountOpsUsed env) 0 _

theorem dao_pass_prompt (cfg : Dao.Cfg) (opts : Dao.PassOpts) (env : Env DaoBatchOracle) :
    promptShown (Dao.runDeletionPass cfg opts env) =
      (!cfg.dryRun && !opts.skipConfirm && !cfg.yes &&
        decide (Dao.totalOpsOf cfg opts env > CONFIRM_THRESHOLD)) := by
  have htot : Dao.totalOpsOf cfg opts env =
      (Dao.enumerate cfg opts env).1.length + (Dao.enumerate cfg opts env).2.length := rfl
  have hev : (driveDaoBatches env.oracle (accountOpsUsed env) 0
      (chunk (deletionsFor (Dao.enumerate cfg opts env).1 (Dao.enumerate cfg opts env).2)
        cfg.batchSize)).events.any isPromptEv = false := by
    rw [List.any_eq_false]
    intro e he
    have ht := driveDao_events_tx env.oracle (accountOpsUsed env) 0 _ e he
    simp [isPromptEv_of_isTxEv e ht]
  simp only [promptShown, Dao.runDeletionPass]
  split_ifs with h1 h2 h3 h4
  · simp [h1]
  · rw [htot, h2]
    simp [h1]
  · have hd : cfg.dryRun = false := Bool.eq_false_iff.mpr h1
    rcases Bool.and_eq_true_iff.mp h3 with ⟨ha, _⟩
    rw [htot]
    simp [isPromptEv, hd, ha]
  · have hd : cfg.dryRun = false := Bool.eq_false_iff.mpr h1
    rw [htot]
    simp only [List.any_append, List.any_cons, List.any_nil, hev]
    simp [isPromptEv, isLogWriteEv, hd, h4]
  · have hd : cfg.dryRun = false := Bool.eq_false_iff.mpr h1
    have hc := Bool.eq_false_iff.mpr h4
    rw [htot]
    simp only [List.any_append, List.any_cons, List.any_nil, hev]
    simp [isPromptEv, isLogWriteEv, hd, hc]

theorem personal_pass_prompt (cfg : Personal.Cfg) (opts : Personal.PassOpts)
    (env : Env PersonalBatchOracle) :
    promptShown (Personal.runDeletionPass cfg opts env) =
      (!cfg.dryRun && !opts.skipConfirm && !cfg.yes &&
        decide (Personal.totalOpsOf cfg opts env > CONFIRM_THRESHOLD)) := by
  have htot : Personal.totalOpsOf cfg opts env =
      (Personal.enumerate cfg opts env).1.length +
        (Personal.enumerate cfg opts env).2.length := rfl
  have hev : (Personal.driveBatches env.oracle (accountOpsUsed env) 0
      (chunk (deletionsFor (Personal.enumerate cfg opts env).1
        (Personal.enumerate cfg opts env).2) cfg.batchSize)).events.any isPromptEv = false := by
    rw [List.any_eq_false]
    intro e he
    have ht := drivePersonal_events_tx env.oracle (accountOpsUsed env) 0 _ e he
    simp [isPromptEv_of_isTxEv e ht]
  simp only [promptShown, Personal.runDeletionPass]
  split_ifs with h1 h2 h3 h4
  · simp [h1]
  · rw [htot, h2]
    simp [h1]
  · have hd : cfg.dryRun = false := Bool.eq_false_iff.mpr h1
    rcases Bool.and_eq_true_iff.mp h3 with ⟨ha, _⟩
    rw [htot]
    simp [isPromptEv, hd, ha]
  · have hd : cfg.dryRun = false := Bool.eq_false_iff.mpr h1
    rw [htot]
    simp only [List.any_append, List.any_cons, List.any_nil, hev]
    simp [isPromptEv, isLogWriteEv, hd, h4]
  · have hd : cfg.dryRun = false := Bool.eq_false_iff.mpr h1
    have hc := Bool.eq_false_iff.mpr h4
    rw [htot]
    simp only [List.any_append, List.any_cons, List.any_nil, hev]
    simp [isPromptEv, isLogWriteEv, hd, hc]

/-! ### Lemmas about author resolution -/

theorem resolveAuthor_found (address freshId : String) (s : List EntityNode) (a : String)
    (h : findExistingAccountId s = some a) :
    resolveAuthor address freshId s = (a, false, s) := by
  simp [resolveAuthor, h]

theorem findExistingAccountId_after (address freshId : String) (s : List EntityNode) :
    findExistingAccountId (resolveAuthor address freshId s).2.2 =
      some (resolveAuthor address freshId s).1 := by
  rcases hf : findExistingAccountId s with _ | a
  · simp only [resolveAuthor, hf]
    simp [findExistingAccountId, List.findSome?, accountEntityFor, ACCOUNT_TYPE_ID]
  · simp [resolveAuthor, hf]

theorem authorRuns_stable (address : String) (fresh : Nat → String) (s : List EntityNode)
    (a : String) (h : findExistingAccountId s = some a) :
    ∀ n k, authorRuns address fresh k n s = List.replicate n (a, false) := by
  intro n
  induction n with
  | zero => intro k; rfl
  | succ m ih =>
    intro k
    simp only [authorRuns, resolveAuthor_found address (fresh k) s a h]
    rw [ih (k + 1)]
    rfl

/-! ### Claim theorems -/

theorem countP_not_add {β : Type} (l : List β) (f : β → Bool) :
    l.countP (fun e => !(f e)) + l.countP f = l.length := by
  induction l with
  | nil => rfl
  | cons x xs ih =>
    simp only [List.countP_cons, List.length_cons]
    by_cases h : f x <;> simp [h] <;> omega

/-- C1 counterexample: for one entity with no property values and no
relations, the reported estimate `relations.length + entities.length * 2`
is `2`, while the formula claimed by the spec
(`relationsInBatch*1 + entitiesInBatch*1 + entitiesWithPropertiesInBatch*1`)
gives `1`.  The claim as stated is therefore false on the code. -/
theorem C1_counterexample :
    totalOpsEstimate [] [{ id := "e0", name := none, typeIds := [], propertyIds := [] }] = 2 ∧
    specOpsEstimate [] [{ id := "e0", name := none, typeIds := [], propertyIds := [] }] = 1 ∧
    totalOpsEstimate [] [{ id := "e0", name := none, typeIds := [], propertyIds := [] }] ≠
      specOpsEstimate [] [{ id := "e0", name := none, typeIds := [], propertyIds := [] }] := by
  refine ⟨rfl, rfl, ?_⟩
  decide

/-- C1 (amended): the reported operation-count estimate is
`relationsInBatch*1 + entitiesInBatch*2` — it charges every entity 2 ops
whether or not it has property values, so it exceeds the spec's formula by
the number of property-free entities.  The op list actually built follows
the claimed cost model: a relation costs 1 logical op, an entity with at
least one property value costs 2 (unset-values, then delete), an entity
with none costs 1. -/
theorem C1_ops_estimate (rels : List RelationNode) (ents : List EntityNode) :
    totalOpsEstimate rels ents =
      (buildOps (deletionsFor rels ents)).length +
        ents.countP (fun e => e.propertyIds.isEmpty) ∧
    (buildOps (deletionsFor rels ents)).length =
      rels.length + ents.length + ents.countP (fun e => !e.propertyIds.isEmpty) ∧
    (∀ e : EntityNode, (opsForItem (entityDeletion e)).length =
      if e.propertyIds.isEmpty then 1 else 2) ∧
    (∀ r : RelationNode, (opsForItem (relationDeletion r)).length = 1) := by
  refine ⟨?_, buildOps_deletions_length rels ents, opsForItem_entity_length, fun r => rfl⟩
  rw [buildOps_deletions_length rels ents]
  have := countP_not_add ents (fun e => e.propertyIds.isEmpty)
  simp only [totalOpsEstimate]
  omega

/-- C2: against a fixed space, repeated author-resolution runs
(`findExistingAccountId`, then `Account.make` only on a null lookup) all
yield the same author identifier, create at most one author object over
any number of runs, and every run after the first reuses rather than
creates.  The space state is the entity list in most-recently-updated
order, mutated only by the resolver itself; an executed creation makes
the account entity the most-recently-updated one, where the 10-entity
lookup window of `findExistingAccountId` finds it. -/
theorem C2_author_resolution (address : String) (fresh : Nat → String)
    (s : List EntityNode) (n : Nat) :
    (∀ p ∈ authorRuns address fresh 0 n s, ∀ q ∈ authorRuns address fresh 0 n s,
      p.1 = q.1) ∧
    (authorRuns address fresh 0 n s).countP (fun p => p.2) ≤ 1 ∧
    (∀ p ∈ (authorRuns address fresh 0 n s).drop 1, p.2 = false) := by
  cases n with
  | zero => simp [authorRuns]
  | succ m =>
    have hstep : authorRuns address fresh 0 (m + 1) s =
        ((resolveAuthor address (fresh 0) s).1, (resolveAuthor address (fresh 0) s).2.1) ::
          authorRuns address fresh 1 m (resolveAuthor address (fresh 0) s).2.2 := rfl
    have htail : authorRuns address fresh 1 m (resolveAuthor address (fresh 0) s).2.2 =
        List.replicate m ((resolveAuthor address (fresh 0) s).1, false) :=
      authorRuns_stable address fresh _ _ (findExistingAccountId_after address (fresh 0) s) m 1
    rw [hstep, htail]
    have hmem : ∀ p ∈ (((resolveAuthor address (fresh 0) s).1,
        (resolveAuthor address (fresh 0) s).2.1) ::
          List.replicate m ((resolveAuthor address (fresh 0) s).1, false)),
        p.1 = (resolveAuthor address (fresh 0) s).1 := by
      intro p hp
      rcases List.mem_cons.mp hp with h | h
      · rw [h]
      · rw [List.eq_of_mem_replicate h]
    have hrep : (List.replicate m ((resolveAuthor address (fresh 0) s).1, false)).countP
        (fun p => p.2) = 0 := by
      rw [List.countP_eq_zero]
      intro p hp
      rw [List.eq_of_mem_replicate hp]
      simp
    refine ⟨fun p hp q hq => (hmem p hp).trans (hmem q hq).symm, ?_, ?_⟩
    · rw [List.countP_cons, hrep]
      by_cases h : (resolveAuthor address (fresh 0) s).2.1 <;> simp [h]
    · intro p hp
      simp only [List.drop_one, List.tail_cons] at hp
      rw [List.eq_of_mem_replicate hp]

/-- C3: for every enumerated set and positive batch size, the planned
batches are an exact partition of the `deletions` list (flattening the
batches gives the list back, so no duplication and no omission), the
flattened order is all relation descriptors before all entity
descriptors, every batch except possibly the last has exactly the target
size, the last batch has the remainder, and 12 000 items at batch size
5 000 yield exactly batches of 5000, 5000, 2000. -/
theorem C3_batch_partition (rels : List RelationNode) (ents : List EntityNode)
    (n : Nat) (hn : 0 < n) :
    (chunk (deletionsFor rels ents) n).flatten = deletionsFor rels ents ∧
    (deletionsFor rels ents).map Deletion.kind =
      List.replicate rels.length DKind.relation ++
        List.replicate ents.length DKind.entity ∧
    (∀ b ∈ (chunk (deletionsFor rels ents) n).dropLast, b.length = n) ∧
    ((chunk (deletionsFor rels ents) n).getLastD []).length =
      (deletionsFor rels ents).length -
        ((chunk (deletionsFor rels ents) n).length - 1) * n ∧
    (rels.length + ents.length = 12000 → n = 5000 →
      (chunk (deletionsFor rels ents) n).map List.length = [5000, 5000, 2000]) := by
  refine ⟨chunk_flatten _ n hn, deletionsFor_kinds rels ents,
    chunk_dropLast_length _ n hn, chunk_getLastD_length _ n hn, ?_⟩
  intro h12 h5
  subst h5
  exact chunk_lengths_12000_5000 _ (by rw [deletionsFor_length]; exact h12)

/-- Witness for C3 at a concrete input: one relation and one entity at
batch size 2. -/
theorem C3_batch_partition_witness :
    0 < 2 ∧
    ((chunk (deletionsFor [{ id := "r1", typeId := "t", fromEntityId := "a", toEntityId := "b" }]
        [{ id := "e1", name := none, typeIds := [], propertyIds := ["p"] }]) 2).flatten =
      deletionsFor [{ id := "r1", typeId := "t", fromEntityId := "a", toEntityId := "b" }]
        [{ id := "e1", name := none, typeIds := [], propertyIds := ["p"] }] ∧
    (deletionsFor [{ id := "r1", typeId := "t", fromEntityId := "a", toEntityId := "b" }]
        [{ id := "e1", name := none, typeIds := [], propertyIds := ["p"] }]).map Deletion.kind =
      List.replicate
        ([{ id := "r1", typeId := "t", fromEntityId := "a", toEntityId := "b" }] :
          List RelationNode).length DKind.relation ++
        List.replicate
          ([{ id := "e1", name := none, typeIds := [], propertyIds := ["p"] }] :
            List EntityNode).length DKind.entity ∧
    (∀ b ∈ (chunk (deletionsFor
        [{ id := "r1", typeId := "t", fromEntityId := "a", toEntityId := "b" }]
        [{ id := "e1", name := none, typeIds := [], propertyIds := ["p"] }]) 2).dropLast,
      b.length = 2) ∧
    ((chunk (deletionsFor [{ id := "r1", typeId := "t", fromEntityId := "a", toEntityId := "b" }]
        [{ id := "e1", name := none, typeIds := [], propertyIds := ["p"] }]) 2).getLastD []).length =
      (deletionsFor [{ id := "r1", typeId := "t", fromEntityId := "a", toEntityId := "b" }]
        [{ id := "e1", name := none, typeIds := [], propertyIds := ["p"] }]).length -
        ((chunk (deletionsFor
          [{ id := "r1", typeId := "t", fromEntityId := "a", toEntityId := "b" }]
          [{ id := "e1", name := none, typeIds := [], propertyIds := ["p"] }]) 2).length - 1) * 2 ∧
    (([{ id := "r1", typeId := "t", fromEntityId := "a", toEntityId := "b" }] :
        List RelationNode).length +
      ([{ id := "e1", name := none, typeIds := [], propertyIds := ["p"] }] :
        List EntityNode).length = 12000 → 2 = 5000 →
      (chunk (deletionsFor [{ id := "r1", typeId := "t", fromEntityId := "a", toEntityId := "b" }]
        [{ id := "e1", name := none, typeIds := [], propertyIds := ["p"] }]) 2).map List.length =
        [5000, 5000, 2000])) :=
  ⟨by decide, C3_batch_partition
    [{ id := "r1", typeId := "t", fromEntityId := "a", toEntityId := "b" }]
    [{ id := "e1", name := none, typeIds := [], propertyIds := ["p"] }] 2 (by decide)⟩

/-- C4 counterexample: a live pass over a space whose filtered enumeration
is empty returns immediately with an empty trace — in particular no
`writeProgressLog` append happens, contradicting the claim that a
ProgressRecord with `opsAttempted = 0` is written for that pass. -/
theorem C4_counterexample :
    (Dao.runDeletionPass
      { dryRun := false, limit := none, totalLimit := none, yes := false, batchSize := 45 }
      { chunkLimit := none, skipConfirm := false }
      { countsBefore := { entities := 5, relations := 6 }
        countsAfter := { entities := 1, relations := 2 }
        spaceEntities := []
        spaceRelations := []
        existingAccountId := none
        accountMakeId := "acc"
        accountMakeOps := ["a"]
        confirmAnswer := true
        oracle := fun _ =>
          { buildThrows := false, propose := TxOutcome.ok, vote := TxOutcome.ok,
            execInfo := ReadOutcome.val true, threshold := ReadOutcome.val false,
            exec := TxOutcome.ok } }).trace = [] ∧
    (Dao.runDeletionPass
      { dryRun := false, limit := none, totalLimit := none, yes := false, batchSize := 45 }
      { chunkLimit := none, skipConfirm := false }
      { countsBefore := { entities := 5, relations := 6 }
        countsAfter := { entities := 1, relations := 2 }
        spaceEntities := []
        spaceRelations := []
        existingAccountId := none
        accountMakeId := "acc"
        accountMakeOps := ["a"]
        confirmAnswer := true
        oracle := fun _ =>
          { buildThrows := false, propose := TxOutcome.ok, vote := TxOutcome.ok,
            execInfo := ReadOutcome.val true, threshold := ReadOutcome.val false,
            exec := TxOutcome.ok } }).result.opsAttempted = 0 := by
  constructor <;> rfl

/-- C4 (amended): a live pass whose enumeration (after filtering and
trimming) yields zero items plans zero batches, returns immediately and
non-aborted with `opsAttempted = 0` and `countsAfter = countsBefore`,
produces no events at all — in particular no ProgressRecord is written
for that pass, since the early return precedes the progress-log write —
and the multi-pass drain loop exits after it. -/
theorem C4_empty_pass (cfg : Dao.Cfg) (opts : Dao.PassOpts) (env : Env DaoBatchOracle)
    (h1 : cfg.dryRun = false) (h2 : Dao.totalOpsOf cfg opts env = 0) :
    (Dao.runDeletionPass cfg opts env).plannedBatches = 0 ∧
    (Dao.runDeletionPass cfg opts env).result.aborted = false ∧
    (Dao.runDeletionPass cfg opts env).result.opsAttempted = 0 ∧
    (Dao.runDeletionPass cfg opts env).result.countsAfter =
      (Dao.runDeletionPass cfg opts env).result.countsBefore ∧
    (Dao.runDeletionPass cfg opts env).trace = [] ∧
    drainStops (Dao.runDeletionPass cfg opts env).result = true := by
  rw [dao_pass_empty cfg opts env h1 h2]
  simp [emptyPassResult, drainStops]

/-- Witness for C4 at a concrete input: a live pass over an empty space. -/
theorem C4_empty_pass_witness :
    ({ dryRun := false, limit := none, totalLimit := none, yes := false,
        batchSize := 45 } : Dao.Cfg).dryRun = false ∧
    Dao.totalOpsOf
      { dryRun := false, limit := none, totalLimit := none, yes := false, batchSize := 45 }
      { chunkLimit := none, skipConfirm := false }
      { countsBefore := { entities := 5, relations := 6 }
        countsAfter := { entities := 1, relations := 2 }
        spaceEntities := []
        spaceRelations := []
        existingAccountId := none
        accountMakeId := "acc"
        accountMakeOps := ["a"]
        confirmAnswer := true
        oracle := fun _ =>
          { buildThrows := false, propose := TxOutcome.ok, vote := TxOutcome.ok,
            execInfo := ReadOutcome.val true, threshold := ReadOutcome.val false,
            exec := TxOutcome.ok } } = 0 ∧
    drainStops (Dao.runDeletionPass
      { dryRun := false, limit := none, totalLimit := none, yes := false, batchSize := 45 }
      { chunkLimit := none, skipConfirm := false }
      { countsBefore := { entities := 5, relations := 6 }
        countsAfter := { entities := 1, relations := 2 }
        spaceEntities := []
        spaceRelations := []
        existingAccountId := none
        accountMakeId := "acc"
        accountMakeOps := ["a"]
        confirmAnswer := true
        oracle := fun _ =>
          { buildThrows := false, propose := TxOutcome.ok, vote := TxOutcome.ok,
            execInfo := ReadOutcome.val true, threshold := ReadOutcome.val false,
            exec := TxOutcome.ok } }).result = true :=
  ⟨rfl, rfl,
    (C4_empty_pass
      { dryRun := false, limit := none, totalLimit := none, yes := false, batchSize := 45 }
      { chunkLimit := none, skipConfirm := false }
      { countsBefore := { entities := 5, relations := 6 }
        countsAfter := { entities := 1, relations := 2 }
        spaceEntities := []
        spaceRelations := []
        existingAccountId := none
        accountMakeId := "acc"
        accountMakeOps := ["a"]
        confirmAnswer := true
        oracle := fun _ =>
          { buildThrows := false, propose := TxOutcome.ok, vote := TxOutcome.ok,
            execInfo := ReadOutcome.val true, threshold := ReadOutcome.val false,
            exec := TxOutcome.ok } } rfl rfl).2.2.2.2.2⟩

theorem runDaoBatch_countP_propose_ne (o : DaoBatchOracle) (j k : Nat) (ops : List Op)
    (h : j ≠ k) : (runDaoBatch o j ops).2.countP (isProposeTxFor k) = 0 := by
  rw [List.countP_eq_zero]
  intro e he
  rcases runDaoBatch_mem o j ops e he with h1 | h1 | h1 <;> subst h1 <;>
    simp [isProposeTxFor, h]

theorem runDaoBatch_countP_vote_ne (o : DaoBatchOracle) (j k : Nat) (ops : List Op)
    (h : j ≠ k) : (runDaoBatch o j ops).2.countP (isVoteTxFor k) = 0 := by
  rw [List.countP_eq_zero]
  intro e he
  rcases runDaoBatch_mem o j ops e he with h1 | h1 | h1 <;> subst h1 <;>
    simp [isVoteTxFor, h]

theorem runDaoBatch_countP_exec_ne (o : DaoBatchOracle) (j k : Nat) (ops : List Op)
    (h : j ≠ k) : (runDaoBatch o j ops).2.countP (isExecTxFor k) = 0 := by
  rw [List.countP_eq_zero]
  intro e he
  rcases runDaoBatch_mem o j ops e he with h1 | h1 | h1 <;> subst h1 <;>
    simp [isExecTxFor, h]

/-- C5: a governed batch whose propose and vote confirm but whose
proposal is neither auto-executed nor past the support threshold submits
no execute transaction, is not retried within the run (across the whole
batch loop exactly one propose and one vote transaction exist for that
batch index, and no execute transaction), and completes without a throw,
so the loop counts it in `batchesCompleted`, not `batchesFailed`. -/
theorem C5_pending_threshold :
    (∀ (o : DaoBatchOracle) (i : Nat) (ops : List Op), pendingShape o →
      runDaoBatch o i ops = (true, [Ev.proposeTx i ops, Ev.voteTx i])) ∧
    (∀ (oracle : Nat → DaoBatchOracle) (acc : List Op) (bs : List (List Deletion)) (k : Nat),
      k < bs.length → pendingShape (oracle k) →
      (driveDaoBatches oracle acc 0 bs).events.countP (isExecTxFor k) = 0 ∧
      (driveDaoBatches oracle acc 0 bs).events.countP (isProposeTxFor k) = 1 ∧
      (driveDaoBatches oracle acc 0 bs).events.countP (isVoteTxFor k) = 1 ∧
      1 ≤ (driveDaoBatches oracle acc 0 bs).completed ∧
      (driveDaoBatches oracle acc 0 bs).completed +
        (driveDaoBatches oracle acc 0 bs).failed = bs.length) := by
  refine ⟨runDaoBatch_pending, ?_⟩
  intro oracle acc bs k hk hp
  have hkk := runDaoBatch_pending (oracle k) k
    (allOpsFor acc k (buildOps (bs.getD (k - 0) []))) hp
  have hbounds1 : 0 ≤ k := Nat.zero_le k
  have hbounds2 : k < 0 + bs.length := by omega
  refine ⟨?_, ?_, ?_, ?_, driveDao_count oracle acc 0 bs⟩
  · rw [driveDao_countP_single oracle acc (isExecTxFor k) k
      (fun j ops hj => runDaoBatch_countP_exec_ne (oracle j) j k ops hj) 0 bs hbounds1 hbounds2]
    rw [hkk]
    simp [isExecTxFor]
  · rw [driveDao_countP_single oracle acc (isProposeTxFor k) k
      (fun j ops hj => runDaoBatch_countP_propose_ne (oracle j) j k ops hj) 0 bs hbounds1 hbounds2]
    rw [hkk]
    simp [isProposeTxFor, isVoteTxFor]
  · rw [driveDao_countP_single oracle acc (isVoteTxFor k) k
      (fun j ops hj => runDaoBatch_countP_vote_ne (oracle j) j k ops hj) 0 bs hbounds1 hbounds2]
    rw [hkk]
    simp [isProposeTxFor, isVoteTxFor]
  · exact driveDao_completed_pos oracle acc k
      (fun ops => by rw [runDaoBatch_pending (oracle k) k ops hp]) 0 bs hbounds1 hbounds2

/-- A sample oracle in the C5 shape: propose and vote confirm, the
proposal is not auto-executed, the threshold is not reached. -/
def pendingOracle : DaoBatchOracle :=
  { buildThrows := false, propose := TxOutcome.ok, vote := TxOutcome.ok,
    execInfo := ReadOutcome.val false, threshold := ReadOutcome.val false,
    exec := TxOutcome.ok }

/-- Witness for C5: a single pending-threshold batch. -/
theorem C5_pending_threshold_witness :
    pendingShape pendingOracle ∧
    runDaoBatch pendingOracle 0 [] = (true, [Ev.proposeTx 0 [], Ev.voteTx 0]) ∧
    ((0 : Nat) < ([[]] : List (List Deletion)).length ∧
      (driveDaoBatches (fun _ => pendingOracle) [] 0 [[]]).events.countP (isExecTxFor 0) = 0 ∧
      (driveDaoBatches (fun _ => pendingOracle) [] 0 [[]]).completed +
        (driveDaoBatches (fun _ => pendingOracle) [] 0 [[]]).failed =
        ([[]] : List (List Deletion)).length) := by
  refine ⟨by decide, ?_, by decide, ?_, ?_⟩
  · exact C5_pending_threshold.1 pendingOracle 0 [] (by decide)
  · exact (C5_pending_threshold.2 (fun _ => pendingOracle) [] [[]] 0
      (by decide) (by decide)).1
  · exact (C5_pending_threshold.2 (fun _ => pendingOracle) [] [[]] 0
      (by decide) (by decide)).2.2.2.2

/-- C6: every batch error is caught at the batch boundary and the loop
continues: the drivers are total over every per-batch outcome oracle
(including oracles where every step throws), at the end of a batch loop
completed + failed batches equal the number of batches driven, and at the
end of every pass — of either script — `batchesCompleted + batchesFailed`
equals the number of planned batches, with nothing propagating out of the
pass. -/
theorem C6_batch_isolation :
    (∀ (cfg : Dao.Cfg) (opts : Dao.PassOpts) (env : Env DaoBatchOracle),
      (Dao.runDeletionPass cfg opts env).result.batchesCompleted +
        (Dao.runDeletionPass cfg opts env).result.batchesFailed =
        (Dao.runDeletionPass cfg opts env).plannedBatches) ∧
    (∀ (cfg : Personal.Cfg) (opts : Personal.PassOpts) (env : Env PersonalBatchOracle),
      (Personal.runDeletionPass cfg opts env).result.batchesCompleted +
        (Personal.runDeletionPass cfg opts env).result.batchesFailed =
        (Personal.runDeletionPass cfg opts env).plannedBatches) ∧
    (∀ (oracle : Nat → DaoBatchOracle) (acc : List Op) (i : Nat) (bs : List (List Deletion)),
      (driveDaoBatches oracle acc i bs).completed +
        (driveDaoBatches oracle acc i bs).failed = bs.length) ∧
    (∀ (oracle : Nat → PersonalBatchOracle) (acc : List Op) (i : Nat)
        (bs : List (List Deletion)),
      (Personal.driveBatches oracle acc i bs).completed +
        (Personal.driveBatches oracle acc i bs).failed = bs.length) :=
  ⟨dao_pass_counts, personal_pass_counts, driveDao_count, drivePersonal_count⟩

/-- With a truthy combined cap, the post-trim combined item count never
exceeds the cap: either the trim branch fires and truncates to at most
`l`, or the combined count was already at most `l`. -/
theorem trimToLimit_cap (l : Nat) (rels : List RelationNode) (ents : List EntityNode) :
    (trimToLimit (some l) rels ents).1.length +
      (trimToLimit (some l) rels ents).2.length ≤ l := by
  simp only [trimToLimit]
  split_ifs with h1 h2 <;> simp only [List.length_take, List.length_nil] <;> omega

theorem dao_enumerate_cap (cfg : Dao.Cfg) (opts : Dao.PassOpts) (env : Env DaoBatchOracle)
    (l : Nat) (h : Dao.effectiveLimit cfg opts = some l) :
    (Dao.enumerate cfg opts env).1.length + (Dao.enumerate cfg opts env).2.length ≤ l := by
  simp only [Dao.enumerate, h]
  exact trimToLimit_cap l _ _

theorem personal_enumerate_cap (cfg : Personal.Cfg) (opts : Personal.PassOpts)
    (env : Env PersonalBatchOracle) (l : Nat)
    (h : Personal.effectiveLimit cfg opts = some l) :
    (Personal.enumerate cfg opts env).1.length +
      (Personal.enumerate cfg opts env).2.length ≤ l := by
  simp only [Personal.enumerate, h]
  exact trimToLimit_cap l _ _

/-- C7: with a combined cap `l`, when the fetched relations plus entities
exceed the cap, relations are consumed up to the cap before any entities:
if the relation count reaches the cap the relations are truncated to `l`
and no entities are kept, otherwise all relations are kept and the
entities are truncated from the head of the enumerated order to exactly
`l - relations.length`, so the combined total is at most the cap.  In
both scripts, whenever the pass has a truthy effective limit `l`, the
post-trim item count of the pass never exceeds `l`. -/
theorem C7_combined_cap :
    (∀ (l : Nat) (rels : List RelationNode) (ents : List EntityNode),
      0 < l → l < rels.length + ents.length →
      ((trimToLimit (some l) rels ents).1.length +
        (trimToLimit (some l) rels ents).2.length ≤ l) ∧
      (l ≤ rels.length → trimToLimit (some l) rels ents = (rels.take l, [])) ∧
      (rels.length < l →
        trimToLimit (some l) rels ents = (rels, ents.take (l - rels.length)) ∧
        (trimToLimit (some l) rels ents).2.length = l - rels.length ∧
        (trimToLimit (some l) rels ents).1.length +
          (trimToLimit (some l) rels ents).2.length = l)) ∧
    (∀ (cfg : Dao.Cfg) (opts : Dao.PassOpts) (env : Env DaoBatchOracle) (l : Nat),
      Dao.effectiveLimit cfg opts = some l → Dao.totalOpsOf cfg opts env ≤ l) ∧
    (∀ (cfg : Personal.Cfg) (opts : Personal.PassOpts) (env : Env PersonalBatchOracle)
        (l : Nat),
      Personal.effectiveLimit cfg opts = some l → Personal.totalOpsOf cfg opts env ≤ l) := by
  refine ⟨?_, ?_, ?_⟩
  · intro l rels ents hl hgt
    refine ⟨trimToLimit_cap l rels ents, ?_, ?_⟩
    · intro hrl
      simp only [trimToLimit]
      rw [if_pos (by omega), if_pos (by omega)]
    · intro hlr
      have heq : trimToLimit (some l) rels ents = (rels, ents.take (l - rels.length)) := by
        simp only [trimToLimit]
        rw [if_pos (by omega), if_neg (by omega)]
      refine ⟨heq, ?_, ?_⟩
      · rw [heq]
        simp only [List.length_take]
        omega
      · rw [heq]
        simp only [List.length_take]
        omega
  · intro cfg opts env l h
    exact dao_enumerate_cap cfg opts env l h
  · intro cfg opts env l h
    exact personal_enumerate_cap cfg opts env l h

/-- Witness for C7: cap 2 over two relations and one entity. -/
theorem C7_combined_cap_witness :
    (0 < 2 ∧ 2 <
      ([{ id := "r1", typeId := "t", fromEntityId := "a", toEntityId := "b" },
        { id := "r2", typeId := "t", fromEntityId := "a", toEntityId := "b" }] :
          List RelationNode).length +
      ([{ id := "e1", name := none, typeIds := [], propertyIds := [] }] :
          List EntityNode).length ∧
      (trimToLimit (some 2)
        [{ id := "r1", typeId := "t", fromEntityId := "a", toEntityId := "b" },
         { id := "r2", typeId := "t", fromEntityId := "a", toEntityId := "b" }]
        [{ id := "e1", name := none, typeIds := [], propertyIds := [] }]).1.length +
      (trimToLimit (some 2)
        [{ id := "r1", typeId := "t", fromEntityId := "a", toEntityId := "b" },
         { id := "r2", typeId := "t", fromEntityId := "a", toEntityId := "b" }]
        [{ id := "e1", name := none, typeIds := [], propertyIds := [] }]).2.length ≤ 2) ∧
    (Dao.effectiveLimit
      { dryRun := false, limit := none, totalLimit := some 2, yes := true, batchSize := 45 }
      { chunkLimit := none, skipConfirm := true } = some 2 ∧
     Dao.totalOpsOf
      { dryRun := false, limit := none, totalLimit := some 2, yes := true, batchSize := 45 }
      { chunkLimit := none, skipConfirm := true }
      { countsBefore := { entities := 1, relations := 2 }
        countsAfter := { entities := 0, relations := 0 }
        spaceEntities := [{ id := "e1", name := none, typeIds := [], propertyIds := [] }]
        spaceRelations :=
          [{ id := "r1", typeId := "t", fromEntityId := "a", toEntityId := "b" },
           { id := "r2", typeId := "t", fromEntityId := "a", toEntityId := "b" }]
        existingAccountId := some "acc"
        accountMakeId := "acc"
        accountMakeOps := []
        confirmAnswer := true
        oracle := fun _ => pendingOracle } ≤ 2) := by
  constructor
  · refine ⟨by decide, by decide, ?_⟩
    exact (C7_combined_cap.1 2
      [{ id := "r1", typeId := "t", fromEntityId := "a", toEntityId := "b" },
       { id := "r2", typeId := "t", fromEntityId := "a", toEntityId := "b" }]
      [{ id := "e1", name := none, typeIds := [], propertyIds := [] }]
      (by decide) (by decide)).1
  · refine ⟨by decide, ?_⟩
    exact C7_combined_cap.2.1
      { dryRun := false, limit := none, totalLimit := some 2, yes := true, batchSize := 45 }
      { chunkLimit := none, skipConfirm := true }
      { countsBefore := { entities := 1, relations := 2 }
        countsAfter := { entities := 0, relations := 0 }
        spaceEntities := [{ id := "e1", name := none, typeIds := [], propertyIds := [] }]
        spaceRelations :=
          [{ id := "r1", typeId := "t", fromEntityId := "a", toEntityId := "b" },
           { id := "r2", typeId := "t", fromEntityId := "a", toEntityId := "b" }]
        existingAccountId := some "acc"
        accountMakeId := "acc"
        accountMakeOps := []
        confirmAnswer := true
        oracle := fun _ => pendingOracle } 2 (by decide)

/-- C8: author-creation ops appear only in the first batch's published op
list and only when no existing author was found.  `allOpsFor` (the
`allOps` expression of both scripts) prepends the account-creation ops
exactly for batch 0; when an existing account is found the creation-op
list is empty; the deletion-op builder never emits an author op; and any
propose (DAO) or publish (personal) transaction of a batch `k > 0`
carries exactly that batch's own deletion ops, with no author op. -/
theorem C8_author_ops_first_batch :
    (∀ (acc ops : List Op) (i : Nat),
      allOpsFor acc i ops = if i = 0 then acc ++ ops else ops) ∧
    (∀ (acc ops : List Op) (i : Nat), 0 < i → allOpsFor acc i ops = ops) ∧
    (∀ dels : List Deletion, (buildOps dels).countP isAuthorOp = 0) ∧
    (∀ (O : Type) (env : Env O), env.existingAccountId.isSome = true →
      accountOpsUsed env = []) ∧
    (∀ (oracle : Nat → DaoBatchOracle) (acc : List Op) (bs : List (List Deletion))
        (k : Nat) (ops : List Op),
      Ev.proposeTx k ops ∈ (driveDaoBatches oracle acc 0 bs).events →
      ops = allOpsFor acc k (buildOps (bs.getD k []))) ∧
    (∀ (oracle : Nat → PersonalBatchOracle) (acc : List Op) (bs : List (List Deletion))
        (k : Nat) (ops : List Op),
      Ev.publishTx k ops ∈ (Personal.driveBatches oracle acc 0 bs).events →
      ops = allOpsFor acc k (buildOps (bs.getD k []))) ∧
    (∀ (oracle : Nat → DaoBatchOracle) (acc : List Op) (bs : List (List Deletion))
        (k : Nat) (ops : List Op), 0 < k →
      Ev.proposeTx k ops ∈ (driveDaoBatches oracle acc 0 bs).events →
      ops = buildOps (bs.getD k []) ∧ ops.countP isAuthorOp = 0) := by
  have h1 : ∀ (acc ops : List Op) (i : Nat),
      allOpsFor acc i ops = if i = 0 then acc ++ ops else ops := by
    intro acc ops i
    simp only [allOpsFor]
    by_cases hi : i = 0
    · subst hi
      by_cases ha : acc.length > 0
      · rw [if_pos ⟨rfl, ha⟩, if_pos rfl]
      · have : acc = [] := by
          cases acc
          · rfl
          · simp at ha
        subst this
        simp
    · rw [if_neg (by simp [hi]), if_neg hi]
  have h2 : ∀ (acc ops : List Op) (i : Nat), 0 < i → allOpsFor acc i ops = ops := by
    intro acc ops i hi
    rw [h1]
    rw [if_neg (by omega)]
  have h5 : ∀ (oracle : Nat → DaoBatchOracle) (acc : List Op) (bs : List (List Deletion))
      (k : Nat) (ops : List Op),
      Ev.proposeTx k ops ∈ (driveDaoBatches oracle acc 0 bs).events →
      ops = allOpsFor acc k (buildOps (bs.getD k [])) := by
    intro oracle acc bs k ops hm
    have := (driveDao_propose_ops oracle acc 0 bs k ops hm).2.2
    simpa using this
  refine ⟨h1, h2, buildOps_no_author, ?_, h5, ?_, ?_⟩
  · intro O env h
    rcases henv : env.existingAccountId with _ | a
    · rw [henv] at h
      simp at h
    · simp [accountOpsUsed, henv]
  · intro oracle acc bs k ops hm
    have := (drivePersonal_publish_ops oracle acc 0 bs k ops hm).2.2
    simpa using this
  · intro oracle acc bs k ops hk hm
    have ho := h5 oracle acc bs k ops hm
    rw [h2 acc _ k hk] at ho
    exact ⟨ho, ho ▸ buildOps_no_author _⟩

/-- A sample DAO-pass environment in which an account entity already
exists. -/
def sampleDaoEnv : Env DaoBatchOracle :=
  { countsBefore := { entities := 2, relations := 1 }
    countsAfter := { entities := 0, relations := 0 }
    spaceEntities := []
    spaceRelations := []
    existingAccountId := some "acc"
    accountMakeId := "fresh"
    accountMakeOps := ["a"]
    confirmAnswer := true
    oracle := fun _ => pendingOracle }

/-- Witness for C8: a two-batch loop; the second batch's propose carries
exactly its own (empty) deletion ops, and an existing account yields an
empty creation-op list. -/
theorem C8_author_ops_first_batch_witness :
    (0 < 1 ∧ allOpsFor [Op.author "a"] 1 [Op.deleteEntityOp "e"] = [Op.deleteEntityOp "e"]) ∧
    (sampleDaoEnv.existingAccountId.isSome = true ∧ accountOpsUsed sampleDaoEnv = []) ∧
    (Ev.proposeTx 1 [] ∈ (driveDaoBatches (fun _ => pendingOracle) [] 0 [[], []]).events ∧
      ([] : List Op) = allOpsFor [] 1 (buildOps (([[], []] : List (List Deletion)).getD 1 []))) ∧
    (([] : List Op) = buildOps (([[], []] : List (List Deletion)).getD 1 []) ∧
      ([] : List Op).countP isAuthorOp = 0) := by
  refine ⟨⟨by decide, ?_⟩, ⟨by decide, ?_⟩, ⟨by decide, ?_⟩, ?_⟩
  · exact C8_author_ops_first_batch.2.1 [Op.author "a"] [Op.deleteEntityOp "e"] 1 (by decide)
  · exact C8_author_ops_first_batch.2.2.2.1 DaoBatchOracle sampleDaoEnv (by decide)
  · exact C8_author_ops_first_batch.2.2.2.2.1 (fun _ => pendingOracle) [] [[], []] 1 []
      (by decide)
  · exact C8_author_ops_first_batch.2.2.2.2.2.2 (fun _ => pendingOracle) [] [[], []] 1 []
      (by decide) (by decide)

/-- C9: with `--dry-run` set, a pass of either script produces an empty
event trace — no `sendTransaction` of any kind, no prompt, no log write —
and returns aborted with `countsAfter = countsBefore` and zero planned
batches; the no-limit dry-run fast paths of both `main`s submit nothing
either. -/
theorem C9_dry_run_no_tx :
    (∀ (cfg : Dao.Cfg) (opts : Dao.PassOpts) (env : Env DaoBatchOracle),
      cfg.dryRun = true →
      (Dao.runDeletionPass cfg opts env).trace = [] ∧
      (Dao.runDeletionPass cfg opts env).result.aborted = true ∧
      (Dao.runDeletionPass cfg opts env).result.countsAfter =
        (Dao.runDeletionPass cfg opts env).result.countsBefore ∧
      (Dao.runDeletionPass cfg opts env).plannedBatches = 0) ∧
    (∀ (cfg : Personal.Cfg) (opts : Personal.PassOpts) (env : Env PersonalBatchOracle),
      cfg.dryRun = true →
      (Personal.runDeletionPass cfg opts env).trace = [] ∧
      (Personal.runDeletionPass cfg opts env).result.aborted = true ∧
      (Personal.runDeletionPass cfg opts env).result.countsAfter =
        (Personal.runDeletionPass cfg opts env).result.countsBefore ∧
      (Personal.runDeletionPass cfg opts env).plannedBatches = 0) ∧
    (∀ (counts : Counts) (batchSize : Nat), (Dao.dryRunFastPath counts batchSize).2 = []) ∧
    (∀ (counts : Counts) (batchSize : Nat),
      (Personal.dryRunFastPath counts batchSize).2 = []) := by
  refine ⟨?_, ?_, fun _ _ => rfl, fun _ _ => rfl⟩
  · intro cfg opts env h
    rw [dao_pass_dryRun cfg opts env h]
    simp [emptyPassResult]
  · intro cfg opts env h
    rw [personal_pass_dryRun cfg opts env h]
    simp [emptyPassResult]

/-- Witness for C9: concrete dry-run passes of both scripts over a
non-empty space. -/
theorem C9_dry_run_no_tx_witness :
    (({ dryRun := true, limit := none, totalLimit := none, yes := false,
        batchSize := 45 } : Dao.Cfg).dryRun = true ∧
      (Dao.runDeletionPass
        { dryRun := true, limit := none, totalLimit := none, yes := false, batchSize := 45 }
        { chunkLimit := none, skipConfirm := false }
        { countsBefore := { entities := 5, relations := 6 }
          countsAfter := { entities := 1, relations := 2 }
          spaceEntities := [{ id := "e1", name := none, typeIds := [], propertyIds := [] }]
          spaceRelations := []
          existingAccountId := none
          accountMakeId := "acc"
          accountMakeOps := ["a"]
          confirmAnswer := true
          oracle := fun _ => pendingOracle }).trace = []) ∧
    (({ dryRun := true, limit := none, totalLimit := none, yes := false,
        includeAccounts := false, batchSize := 5000, typeFilter := none,
        excludeTypeFilter := none } : Personal.Cfg).dryRun = true ∧
      (Personal.runDeletionPass
        { dryRun := true, limit := none, totalLimit := none, yes := false,
          includeAccounts := false, batchSize := 5000, typeFilter := none,
          excludeTypeFilter := none }
        { chunkLimit := none, skipConfirm := false }
        { countsBefore := { entities := 5, relations := 6 }
          countsAfter := { entities := 1, relations := 2 }
          spaceEntities := [{ id := "e1", name := none, typeIds := [], propertyIds := [] }]
          spaceRelations := []
          existingAccountId := none
          accountMakeId := "acc"
          accountMakeOps := ["a"]
          confirmAnswer := true
          oracle := fun _ => { buildThrows := false, publishThrows := false } }).trace = []) := by
  constructor
  · refine ⟨rfl, ?_⟩
    exact (C9_dry_run_no_tx.1
      { dryRun := true, limit := none, totalLimit := none, yes := false, batchSize := 45 }
      { chunkLimit := none, skipConfirm := false }
      { countsBefore := { entities := 5, relations := 6 }
        countsAfter := { entities := 1, relations := 2 }
        spaceEntities := [{ id := "e1", name := none, typeIds := [], propertyIds := [] }]
        spaceRelations := []
        existingAccountId := none
        accountMakeId := "acc"
        accountMakeOps := ["a"]
        confirmAnswer := true
        oracle := fun _ => pendingOracle } rfl).1
  · refine ⟨rfl, ?_⟩
    exact (C9_dry_run_no_tx.2.1
      { dryRun := true, limit := none, totalLimit := none, yes := false,
        includeAccounts := false, batchSize := 5000, typeFilter := none,
        excludeTypeFilter := none }
      { chunkLimit := none, skipConfirm := false }
      { countsBefore := { entities := 5, relations := 6 }
        countsAfter := { entities := 1, relations := 2 }
        spaceEntities := [{ id := "e1", name := none, typeIds := [], propertyIds := [] }]
        spaceRelations := []
        existingAccountId := none
        accountMakeId := "acc"
        accountMakeOps := ["a"]
        confirmAnswer := true
        oracle := fun _ => { buildThrows := false, publishThrows := false } } rfl).1

/-- C10: in both scripts the confirmation prompt is shown exactly when the
pass is live (not dry-run), not launched with `skipConfirm` (i.e. not a
drain-loop pass), `--yes` is absent, and the post-trim combined item
count strictly exceeds `CONFIRM_THRESHOLD = 1000`; in particular
drain-loop passes never prompt regardless of size, single-pass mode runs
with `skipConfirm = false`, and live deletions of at most 1000 items
never prompt. -/
theorem C10_confirm_prompt :
    (∀ (cfg : Dao.Cfg) (opts : Dao.PassOpts) (env : Env DaoBatchOracle),
      promptShown (Dao.runDeletionPass cfg opts env) =
        (!cfg.dryRun && !opts.skipConfirm && !cfg.yes &&
          decide (Dao.totalOpsOf cfg opts env > CONFIRM_THRESHOLD))) ∧
    (∀ (cfg : Personal.Cfg) (opts : Personal.PassOpts) (env : Env PersonalBatchOracle),
      promptShown (Personal.runDeletionPass cfg opts env) =
        (!cfg.dryRun && !opts.skipConfirm && !cfg.yes &&
          decide (Personal.totalOpsOf cfg opts env > CONFIRM_THRESHOLD))) ∧
    (∀ (cfg : Dao.Cfg) (env : Env DaoBatchOracle),
      promptShown (Dao.runDeletionPass cfg Dao.drainOpts env) = false) ∧
    (∀ (cfg : Personal.Cfg) (env : Env PersonalBatchOracle),
      promptShown (Personal.runDeletionPass cfg Personal.drainOpts env) = false) ∧
    (∀ cfg : Dao.Cfg, (Dao.singleOpts cfg).skipConfirm = false) ∧
    (∀ cfg : Personal.Cfg, (Personal.singleOpts cfg).skipConfirm = false) ∧
    CONFIRM_THRESHOLD = 1000 := by
  refine ⟨dao_pass_prompt, personal_pass_prompt, ?_, ?_, fun _ => rfl, fun _ => rfl, rfl⟩
  · intro cfg env
    rw [dao_pass_prompt]
    simp [Dao.drainOpts]
  · intro cfg env
    rw [personal_pass_prompt]
    simp [Personal.drainOpts]

end GeoClear
